import Mathlib

/-!
# RatingSystem (assets/js/ratings-system.js)

A shallow embedding of the ratings client: the time-expiring cache, the retrying
fetch wrapper, `fetchRatings`, `submitRating`, `renderStars` and the star widget
wired by `initializeStarEvents`.

Conventions of the embedding.

* JavaScript Numbers are `JNum`: `NaN`, the two infinities, or an exact rational.
  A value read out of a string becomes an infinity when it is too large for binary64;
  the rounding of finite values to 53 significant bits and the sign of zero are not
  represented.
* Values that cross the module boundary (JSON bodies, course identifiers) are `JsVal`.
* An `async` function is a function from the world before the call to the settled
  outcome (`Except JsError _`, fulfilled or rejected) and the world after it; each
  call runs to completion, other tasks are not interleaved with it.
* The network is an oracle inside the world: the reply to the `n`-th request issued.
  Every request is appended to the log `World.requests`.
* `console.*` calls have no effect on the modelled state and are left out.
-/

namespace RatingSystem

/-! ## Numbers -/

/-- A JavaScript Number: `NaN`, `-Infinity`, a finite value, or `Infinity`. -/
inductive JNum where
  | nan
  | negInf
  | fin (q : ℚ)
  | posInf
  deriving DecidableEq

namespace JNum

/-- JavaScript `ToBoolean` on a Number: `NaN` and zero are falsy. -/
def truthy : JNum → Bool
  | nan => false
  | fin q => decide (q ≠ 0)
  | _ => true

/-- The operator `a < b`. -/
def lt : JNum → JNum → Bool
  | nan, _ => false
  | _, nan => false
  | negInf, negInf => false
  | negInf, _ => true
  | fin _, negInf => false
  | fin a, fin b => decide (a < b)
  | fin _, posInf => true
  | posInf, _ => false

/-- The operator `a > b`. -/
def gt (a b : JNum) : Bool := lt b a

/-- The operator `a <= b`. -/
def le : JNum → JNum → Bool
  | nan, _ => false
  | _, nan => false
  | negInf, _ => true
  | fin _, negInf => false
  | fin a, fin b => decide (a ≤ b)
  | fin _, posInf => true
  | posInf, posInf => true
  | posInf, _ => false

/-- The operator `a >= b`. -/
def ge (a b : JNum) : Bool := le b a

/-- The operator `a === b` on Numbers: `NaN` equals nothing. -/
def strictEq : JNum → JNum → Bool
  | nan, _ => false
  | _, nan => false
  | a, b => decide (a = b)

/-- The operator `a + b`. -/
def add : JNum → JNum → JNum
  | nan, _ => nan
  | _, nan => nan
  | posInf, negInf => nan
  | negInf, posInf => nan
  | posInf, _ => posInf
  | _, posInf => posInf
  | negInf, _ => negInf
  | _, negInf => negInf
  | fin a, fin b => fin (a + b)

/-- Unary minus. -/
def neg : JNum → JNum
  | nan => nan
  | negInf => posInf
  | fin q => fin (-q)
  | posInf => negInf

/-- The operator `a - b`. -/
def sub (a b : JNum) : JNum := add a (neg b)

/-- The product of an infinity (positive or not) with the finite `q`: an infinity of
the product sign, `NaN` when `q` is zero. -/
def signedInf (positive : Bool) (q : ℚ) : JNum :=
  if q = 0 then nan
  else if decide (0 < q) = positive then posInf else negInf

/-- The operator `a * b`. -/
def mul : JNum → JNum → JNum
  | nan, _ => nan
  | _, nan => nan
  | fin a, fin b => fin (a * b)
  | fin a, posInf => signedInf true a
  | fin a, negInf => signedInf false a
  | posInf, fin b => signedInf true b
  | negInf, fin b => signedInf false b
  | posInf, posInf => posInf
  | negInf, negInf => posInf
  | posInf, negInf => negInf
  | negInf, posInf => negInf

/-- The operator `a / b` (a zero divisor is taken as positive zero). -/
def div : JNum → JNum → JNum
  | nan, _ => nan
  | _, nan => nan
  | fin a, fin b => if b = 0 then signedInf true a else fin (a / b)
  | fin _, _ => fin 0
  | posInf, fin b => if b = 0 then posInf else signedInf true b
  | negInf, fin b => if b = 0 then negInf else signedInf false b
  | _, _ => nan

/-- `Math.round`: the nearest integer, halves rounded towards `+Infinity`. -/
def mathRound : JNum → JNum
  | fin q => fin (⌊q + 1 / 2⌋ : ℤ)
  | x => x

/-- `Math.min(a, b)`. -/
def mathMin (a b : JNum) : JNum :=
  match a, b with
  | nan, _ => nan
  | _, nan => nan
  | a, b => if le a b then a else b

/-- `Math.max(a, b)`. -/
def mathMax (a b : JNum) : JNum :=
  match a, b with
  | nan, _ => nan
  | _, nan => nan
  | a, b => if le a b then b else a

/-- The least magnitude that rounds to an infinity in binary64, `2^1024 - 2^970`:
halfway between the largest finite Number, `2^1024 - 2^971`, and `2^1024`. It is
written as `2^970 * (2^54 - 1)`, with `2^970` split into factors. -/
def overflowBound : ℕ := 2 ^ 256 * 2 ^ 256 * 2 ^ 256 * 2 ^ 202 * (2 ^ 54 - 1)

/-- The Number for a natural number read out of a string. -/
def ofNatural (n : ℕ) : JNum := if overflowBound ≤ n then posInf else fin n

/-- The Number for a non-negative value read out of a string. -/
def ofMagnitude (q : ℚ) : JNum := if (overflowBound : ℚ) ≤ q then posInf else fin q

/-- The expression `x || 0` on a Number. -/
def orZero (x : JNum) : JNum := if x.truthy then x else fin 0

end JNum

/-! ## Values -/

/-- A JavaScript value as it reaches the module: `undefined`, or anything `JSON.parse`
can produce. Objects are their own-property lists, first binding of a name wins. -/
inductive JsVal where
  | undefined
  | null
  | bool (b : Bool)
  | num (n : JNum)
  | str (s : String)
  | arr (items : List JsVal)
  | obj (fields : List (String × JsVal))

/-- An exception value: an `Error` with its `message`. -/
structure JsError where
  message : String
  deriving DecidableEq

namespace JsVal

/-- JavaScript `ToBoolean`. -/
def truthy : JsVal → Bool
  | undefined => false
  | null => false
  | bool b => b
  | num n => n.truthy
  | str s => decide (s ≠ "")
  | arr _ => true
  | obj _ => true

/-- The expression `a || b`. -/
def orElse (a b : JsVal) : JsVal := if a.truthy then a else b

/-- Reading `v.name` for one of the data properties the module reads (`average`,
`count`, `status`, `ip`), none of which is a built-in property of a primitive or of an
array: reading from `null` or `undefined` throws a `TypeError`, an object yields its
binding or `undefined`, any other value yields `undefined`. The message is the one V8
prints. -/
def getProp (v : JsVal) (name : String) : Except JsError JsVal :=
  match v with
  | undefined =>
    .error ⟨"Cannot read properties of undefined (reading \x27" ++ name ++ "\x27)"⟩
  | null => .error ⟨"Cannot read properties of null (reading \x27" ++ name ++ "\x27)"⟩
  | obj fields => .ok ((fields.lookup name).getD undefined)
  | _ => .ok undefined

end JsVal

section Conversions

/- `Number::toString` on finite values is a table of the language runtime, not of this
repository: it is a parameter of every definition that prints a Number. -/
variable (numberToString : ℚ → String)

/-- `Number::toString`. -/
def JNum.toStr : JNum → String
  | .nan => "NaN"
  | .negInf => "-Infinity"
  | .fin q => numberToString q
  | .posInf => "Infinity"

mutual
/-- JavaScript `ToString`, as applied by template literals and by the parsers. -/
def JsVal.toStr : JsVal → String
  | .undefined => "undefined"
  | .null => "null"
  | .bool b => if b then "true" else "false"
  | .num n => JNum.toStr numberToString n
  | .str s => s
  | .arr items => joinItems items
  | .obj _ => "[object Object]"
/-- `Array.prototype.join(",")`: `null` and `undefined` items print as the empty string. -/
def joinItems : List JsVal → String
  | [] => ""
  | [x] => itemStr x
  | x :: y :: rest => itemStr x ++ "," ++ joinItems (y :: rest)
/-- One array item inside `join`. -/
def itemStr : JsVal → String
  | .undefined => ""
  | .null => ""
  | .bool b => if b then "true" else "false"
  | .num n => JNum.toStr numberToString n
  | .str s => s
  | .arr items => joinItems items
  | .obj _ => "[object Object]"
end

end Conversions

/-! ## Parsing numbers out of strings -/

/-- The code points `TrimString` removes: WhiteSpace and LineTerminator. -/
def isStrWhiteSpace (c : Char) : Bool :=
  let n := c.toNat
  n = 9 || n = 10 || n = 11 || n = 12 || n = 13 || n = 32 || n = 160 || n = 5760 ||
  (8192 ≤ n && n ≤ 8202) || n = 8232 || n = 8233 || n = 8239 || n = 8287 ||
  n = 12288 || n = 65279

/-- A decimal digit. -/
def isDecimalDigit (c : Char) : Bool := 48 ≤ c.toNat && c.toNat ≤ 57

/-- The value of a digit in radixes up to 36: `0-9`, then letters in either case. -/
def digitValue (c : Char) : Option Nat :=
  let n := c.toNat
  if 48 ≤ n && n ≤ 57 then some (n - 48)
  else if 97 ≤ n && n ≤ 122 then some (n - 87)
  else if 65 ≤ n && n ≤ 90 then some (n - 55)
  else none

/-- A digit of the given radix. -/
def isRadixDigit (radix : Nat) (c : Char) : Bool :=
  match digitValue c with
  | some d => decide (d < radix)
  | none => false

/-- The number written by a run of digits in the given radix. -/
def digitsValue (radix : Nat) (ds : List Char) : Nat :=
  ds.foldl (fun acc c => acc * radix + (digitValue c).getD 0) 0

/-- An ExponentPart at the head of the input: `e` or `E`, an optional sign and at
least one digit. Yields the exponent and the rest of the input. -/
def readExponent (cs : List Char) : Option (ℤ × List Char) :=
  match cs with
  | c :: rest =>
    if c = 'e' || c = 'E' then
      match rest with
      | '+' :: r =>
        let ds := r.takeWhile isDecimalDigit
        if ds.isEmpty then none else some ((digitsValue 10 ds : ℤ), r.dropWhile isDecimalDigit)
      | '-' :: r =>
        let ds := r.takeWhile isDecimalDigit
        if ds.isEmpty then none else some (-(digitsValue 10 ds : ℤ), r.dropWhile isDecimalDigit)
      | r =>
        let ds := r.takeWhile isDecimalDigit
        if ds.isEmpty then none else some ((digitsValue 10 ds : ℤ), r.dropWhile isDecimalDigit)
    else none
  | [] => none

/-- The longest StrUnsignedDecimalLiteral at the head of the input, with the rest of
the input: `Infinity`, or digits with an optional fraction and exponent. -/
def readUnsignedDecimal (cs : List Char) : Option (JNum × List Char) :=
  if "Infinity".toList.isPrefixOf cs then some (.posInf, cs.drop 8)
  else
    let ip := cs.takeWhile isDecimalDigit
    let r1 := cs.dropWhile isDecimalDigit
    let fp := match r1 with
      | '.' :: r => r.takeWhile isDecimalDigit
      | _ => []
    let r2 := match r1 with
      | '.' :: r => r.dropWhile isDecimalDigit
      | _ => r1
    if ip.isEmpty && fp.isEmpty then none
    else
      let mantissa : ℚ := (digitsValue 10 ip : ℚ) + (digitsValue 10 fp : ℚ) / (10 : ℚ) ^ fp.length
      match readExponent r2 with
      | some (e, r3) => some (JNum.ofMagnitude (mantissa * (10 : ℚ) ^ e), r3)
      | none => some (JNum.ofMagnitude mantissa, r2)

/-- The longest StrDecimalLiteral at the head of the input: an optional sign and an
unsigned literal. -/
def readDecimal (cs : List Char) : Option (JNum × List Char) :=
  match cs with
  | '+' :: r => readUnsignedDecimal r
  | '-' :: r => (readUnsignedDecimal r).map (fun p => (JNum.neg p.1, p.2))
  | _ => readUnsignedDecimal cs

/-- The built-in `parseFloat` on a string: leading white space is skipped, the longest
prefix that is a decimal literal is read, and `NaN` results when there is none. -/
def parseFloatChars (cs : List Char) : JNum :=
  match readDecimal (cs.dropWhile isStrWhiteSpace) with
  | some (n, _) => n
  | none => .nan

/-- The radix `parseInt` settles on and the input left to read, after white space and
sign: with radix 0 (absent) or 16 a leading `0x` or `0X` is dropped and selects radix
16; radix 0 otherwise means 10. -/
def radixAndRest (cs : List Char) (radix : Nat) : Nat × List Char :=
  let hexAllowed := radix = 0 || radix = 16
  let r := if radix = 0 then 10 else radix
  match cs with
  | '0' :: 'x' :: rest => if hexAllowed then (16, rest) else (r, cs)
  | '0' :: 'X' :: rest => if hexAllowed then (16, rest) else (r, cs)
  | _ => (r, cs)

/-- The digits `parseInt` reads after white space and sign: the longest run of digits
of the radix, `NaN` when there is none, `Infinity` when their value is too large for a
Number. -/
def parseIntDigits (cs : List Char) (radix : Nat) : JNum :=
  let rs := radixAndRest cs radix
  let ds := rs.2.takeWhile (isRadixDigit rs.1)
  if ds.isEmpty then .nan else JNum.ofNatural (digitsValue rs.1 ds)

/-- The built-in `parseInt(string, radix)` on a string; radix 0 stands for an absent
radix. -/
def parseIntChars (cs : List Char) (radix : Nat) : JNum :=
  if radix ≠ 0 && (radix < 2 || radix > 36) then .nan
  else
    match cs.dropWhile isStrWhiteSpace with
    | '-' :: r => JNum.neg (parseIntDigits r radix)
    | '+' :: r => parseIntDigits r radix
    | r => parseIntDigits r radix

/-- A non-decimal integer literal body: one or more digits of the radix and nothing
else. -/
def readWholeRadix (radix : Nat) (cs : List Char) : JNum :=
  if !cs.isEmpty && cs.all (isRadixDigit radix) then JNum.ofNatural (digitsValue radix cs)
  else .nan

/-- `StringToNumber`: the whole string, white space trimmed at both ends, must be a
numeric literal; the empty string is 0. -/
def stringToNumber (cs : List Char) : JNum :=
  let t := ((cs.dropWhile isStrWhiteSpace).reverse.dropWhile isStrWhiteSpace).reverse
  match t with
  | [] => .fin 0
  | '0' :: 'x' :: r => readWholeRadix 16 r
  | '0' :: 'X' :: r => readWholeRadix 16 r
  | '0' :: 'o' :: r => readWholeRadix 8 r
  | '0' :: 'O' :: r => readWholeRadix 8 r
  | '0' :: 'b' :: r => readWholeRadix 2 r
  | '0' :: 'B' :: r => readWholeRadix 2 r
  | _ =>
    match readDecimal t with
    | some (n, []) => n
    | _ => .nan

section Conversions

variable (numberToString : ℚ → String)

/-- The built-in `parseFloat(v)`: the argument is converted to a string and parsed. A
Number comes back unchanged, since printing a Number and parsing it round-trips. -/
def parseFloat (v : JsVal) : JNum :=
  match v with
  | .num n => n
  | _ => parseFloatChars (JsVal.toStr numberToString v).toList

/-- The built-in `parseInt(v, radix)`: the argument is converted to a string and
parsed; radix 0 stands for an absent radix. -/
def parseInt (v : JsVal) (radix : Nat) : JNum :=
  parseIntChars (JsVal.toStr numberToString v).toList radix

/-- JavaScript `ToNumber`, as applied by the relational operators. -/
def JsVal.toNumber (v : JsVal) : JNum :=
  match v with
  | .undefined => .nan
  | .null => .fin 0
  | .bool b => if b then .fin 1 else .fin 0
  | .num n => n
  | _ => stringToNumber (JsVal.toStr numberToString v).toList

end Conversions

/-! ## The world: clock, cache and network -/

/-- A RatingSummary, the object `{ average, count }`. -/
structure RatingSummary where
  average : JNum
  count : JNum

/-- An entry of `cache.data`: `{ value, timestamp }`. -/
structure CacheItem where
  value : RatingSummary
  timestamp : ℤ

/-- A call of the platform `fetch`: the URL, the method and the value that is
serialised as the request body. The fixed options (`timeout`, `redirect`, `headers`)
are not recorded; `timeout` is no option of the platform `fetch` and has no effect, so
every attempt is taken to settle, with a response or with an error, and an attempt
that never settles is outside the model. -/
structure Request where
  url : String
  method : String
  body : Option JsVal

/-- A Response: its status line, and what reading the body and parsing it as JSON
yields (`response.json()`, or `response.text()` followed by `JSON.parse`): the parsed
value, or the error raised by the read or by the parse. -/
structure Response where
  status : ℕ
  statusText : String
  json : Except JsError JsVal

/-- The getter `response.ok`: the status is in the range 200-299. -/
def Response.ok (r : Response) : Bool := 200 ≤ r.status && r.status ≤ 299

/-- What the network does with one request: the time it takes and the outcome, a
rejection of `fetch` or a response. -/
structure FetchReply where
  elapsed : ℕ
  result : Except JsError Response

/-- The state the module runs in: the clock read by `Date.now()`, the cache object
(`DURATION` and the Map `data`, in insertion order), the network oracle and the log of
the requests issued so far. -/
structure World where
  now : ℤ
  DURATION : ℤ
  data : List (String × CacheItem)
  net : ℕ → Request → FetchReply
  requests : List Request

/-- `Map.prototype.get`. -/
def mapGet : List (String × CacheItem) → String → Option CacheItem
  | [], _ => none
  | (k, item) :: rest, key => if k = key then some item else mapGet rest key

/-- `Map.prototype.delete`. -/
def mapDelete : List (String × CacheItem) → String → List (String × CacheItem)
  | [], _ => []
  | (k, item) :: rest, key =>
    if k = key then mapDelete rest key else (k, item) :: mapDelete rest key

/-- `Map.prototype.set`: an existing key keeps its place, a new key goes last. -/
def mapSet : List (String × CacheItem) → String → CacheItem → List (String × CacheItem)
  | [], key, item => [(key, item)]
  | (k, old) :: rest, key, item =>
    if k = key then (k, item) :: rest else (k, old) :: mapSet rest key item

/-- The method `cache.get(key)`: the value of a live entry, else the key is deleted and
`null` returned. -/
def cacheGet (w : World) (key : String) : Option RatingSummary × World :=
  match mapGet w.data key with
  | some item =>
    if w.now - item.timestamp < w.DURATION then (some item.value, w)
    else (none, { w with data := mapDelete w.data key })
  | none => (none, { w with data := mapDelete w.data key })

/-- The method `cache.set(key, value)`. -/
def cacheSet (w : World) (key : String) (value : RatingSummary) : World :=
  { w with data := mapSet w.data key ⟨value, w.now⟩ }

/-- The method `cache.clear()`. -/
def cacheClear (w : World) : World := { w with data := [] }

/-- The method `cache.cleanup()`: expired entries are deleted. -/
def cacheCleanup (w : World) : World :=
  { w with data := w.data.filter (fun p => !decide (w.now - p.2.timestamp ≥ w.DURATION)) }

/-- The world when the module has just been loaded at time `now`: an empty cache with
the default `DURATION` of five minutes. -/
def initialWorld (now : ℤ) (net : ℕ → Request → FetchReply) : World :=
  { now := now, DURATION := 5 * 60 * 1000, data := [], net := net, requests := [] }

/-- The platform `fetch(url, options)`: the request is logged, the oracle replies and
the clock advances by the time the exchange took. -/
def fetch (w : World) (req : Request) : Except JsError Response × World :=
  let reply := w.net w.requests.length req
  (reply.result, { w with now := w.now + reply.elapsed, requests := w.requests ++ [req] })

/-- Awaiting `setTimeout(resolve, ms)`. -/
def sleep (w : World) (ms : ℕ) : World := { w with now := w.now + ms }

/-- The error thrown for a response that is not ok. -/
def httpError (response : Response) : JsError :=
  ⟨"HTTP " ++ toString response.status ++ ": " ++ response.statusText⟩

/-- The outcome of the `try` block of one iteration, given how `fetch` settled: a
response that is not ok is turned into a thrown error. -/
def checkResponse (settled : Except JsError Response) : Except JsError Response :=
  match settled with
  | .ok response => if !response.ok then .error (httpError response) else .ok response
  | .error e => .error e

/-- The `for` loop of `fetchWithRetry`, entered with `attempt` and with `remaining`
iterations to go (`maxRetries + 1 - attempt`). Leaving the loop throws `lastError`. -/
def fetchWithRetryLoop (req : Request) (maxRetries : ℕ) :
    ℕ → ℕ → Option JsError → World → Except JsError Response × World
  | 0, _, lastError, w => (.error (lastError.getD ⟨"undefined"⟩), w)
  | remaining + 1, attempt, _, w =>
    let r := fetch w req
    match checkResponse r.1 with
    | .ok response => (.ok response, r.2)
    | .error error =>
      let w2 := if attempt < maxRetries then sleep r.2 (1000 * (attempt + 1)) else r.2
      fetchWithRetryLoop req maxRetries remaining (attempt + 1) (some error) w2

/-- The function `fetchWithRetry(url, options, maxRetries)`. -/
def fetchWithRetry (w : World) (req : Request) (maxRetries : ℕ) :
    Except JsError Response × World :=
  fetchWithRetryLoop req maxRetries (maxRetries + 1) 0 none w

/-- The constant `API_URL`. -/
def API_URL : String :=
  "https://script.google.com/macros/s/AKfycbyu88YR5217U9w5iUPDbaC03gv9kpP8tkeSjglEyMrkAFaVuV-p11CKDKPghi_dj2sG3A/exec"

/-- The summary `{ average: 0, count: 0 }`. -/
def zeroSummary : RatingSummary := ⟨.fin 0, .fin 0⟩

section Client

variable (numberToString : ℚ → String)

/-- The cache key of a course. -/
def cacheKey (courseId : JsVal) : String := "ratings_" ++ JsVal.toStr numberToString courseId

/-- The request `fetchRatings` sends. -/
def ratingsRequest (courseId : JsVal) : Request :=
  { url := API_URL ++ "?action=getRatings&courseId=" ++ JsVal.toStr numberToString courseId,
    method := "GET", body := none }

/-- The object literal `ratings` built from the parsed body `data` in `fetchRatings`. -/
def normalizeRatings (data : JsVal) : Except JsError RatingSummary :=
  match data.getProp "average" with
  | .error e => .error e
  | .ok average =>
    match data.getProp "count" with
    | .error e => .error e
    | .ok count =>
      .ok { average := JNum.mathMax (.fin 0)
              (JNum.mathMin (.fin 5) (parseFloat numberToString average).orZero),
            count := JNum.mathMax (.fin 0) (parseInt numberToString count 0).orZero }

/-- The function `fetchRatings(courseId)`. -/
def fetchRatings (w : World) (courseId : JsVal) : Except JsError RatingSummary × World :=
  if !courseId.truthy then (.ok zeroSummary, w)
  else
    match cacheGet w (cacheKey numberToString courseId) with
    | (some cached, w1) => (.ok cached, w1)
    | (none, w1) =>
      match fetchWithRetry w1 (ratingsRequest numberToString courseId) 2 with
      | (.error _, w2) => (.ok zeroSummary, w2)
      | (.ok response, w2) =>
        match response.json with
        | .error _ => (.ok zeroSummary, w2)
        | .ok data =>
          match normalizeRatings numberToString data with
          | .error _ => (.ok zeroSummary, w2)
          | .ok ratings =>
            (.ok ratings, cacheSet w2 (cacheKey numberToString courseId) ratings)

/-- The request of the IP lookup. -/
def ipRequest : Request :=
  { url := "https://api.ipify.org?format=json", method := "GET", body := none }

/-- The first `try` block of `submitRating`: the value of `userIP` after it. -/
def discoverIP (w : World) : JsVal × World :=
  match fetchWithRetry w ipRequest 1 with
  | (.error _, w1) => (.str "unknown", w1)
  | (.ok ipResponse, w1) =>
    if ipResponse.ok then
      match ipResponse.json with
      | .error _ => (.str "unknown", w1)
      | .ok ipData =>
        match ipData.getProp "ip" with
        | .error _ => (.str "unknown", w1)
        | .ok ip => (ip.orElse (.str "unknown"), w1)
    else (.str "unknown", w1)

/-- The request that carries the rating. -/
def submitRequest (userIP courseId ratingValue : JsVal) : Request :=
  { url := API_URL ++ "?userIP=" ++ JsVal.toStr numberToString userIP,
    method := "POST",
    body := some (.obj [("action", .str "addRating"), ("courseId", courseId),
      ("rating", ratingValue)]) }

/-- The result returned when validation fails. -/
def invalidResult : JsVal :=
  .obj [("status", .str "error"), ("message", .str "Invalid course ID or rating value")]

/-- The result returned from the `catch` block of `submitRating`. -/
def submitFailed (error : JsError) : JsVal :=
  .obj [("status", .str "error"), ("message", .str ("Submit failed: " ++ error.message))]

/-- The test `status === "success"`. -/
def isSuccess (status : JsVal) : Bool :=
  match status with
  | .str s => s == "success"
  | _ => false

/-- The validation test of `submitRating`:
`!courseId || !ratingValue || ratingValue < 1 || ratingValue > 5`. -/
def isInvalid (courseId ratingValue : JsVal) : Bool :=
  !courseId.truthy || !ratingValue.truthy ||
    (JsVal.toNumber numberToString ratingValue).lt (.fin 1) ||
    (JsVal.toNumber numberToString ratingValue).gt (.fin 5)

/-- The function `submitRating(courseId, ratingValue)`. -/
def submitRating (w : World) (courseId ratingValue : JsVal) : Except JsError JsVal × World :=
  if isInvalid numberToString courseId ratingValue then (.ok invalidResult, w)
  else
    let ip := discoverIP w
    match fetchWithRetry ip.2 (submitRequest numberToString ip.1 courseId ratingValue) 2 with
    | (.error e, w2) => (.ok (submitFailed e), w2)
    | (.ok response, w2) =>
      match response.json with
      | .error e => (.ok (submitFailed e), w2)
      | .ok result =>
        match result.getProp "status" with
        | .error e => (.ok (submitFailed e), w2)
        | .ok status =>
          if isSuccess status then
            (.ok result, { w2 with data := mapDelete w2.data (cacheKey numberToString courseId) })
          else (.ok result, w2)

end Client

/-! ## Rendering -/

/-- The class chosen for position `i` inside the loop of `renderStars`. -/
def starClass (roundedRating : JNum) (i : ℕ) : String :=
  if JNum.le (.fin i) roundedRating then "bi-star-fill text-warning"
  else if JNum.strictEq (JNum.sub (.fin i) (.fin (1 / 2))) roundedRating then
    "bi-star-half text-warning"
  else "bi-star text-muted"

/-- The template literal appended for position `i`. -/
def starMarkup (starClass : String) (isInteractive : Bool) (i : ℕ) : String :=
  let interactiveClasses := if isInteractive then "rating-star" else ""
  let interactiveStyle :=
    if isInteractive then "cursor:pointer; transition: color 0.2s ease;" else ""
  let ariaLabel := if isInteractive then "Rate " ++ toString i ++ " stars" else ""
  "<i class=\"bi " ++ starClass ++ " " ++ interactiveClasses ++ "\" \n" ++
  "                       style=\"" ++ interactiveStyle ++ "\" \n" ++
  "                       data-value=\"" ++ toString i ++ "\" \n" ++
  "                       title=\"" ++ ariaLabel ++ "\"\n" ++
  "                       aria-label=\"" ++ ariaLabel ++ "\"></i>"

/-- The rounded rating computed at the top of `renderStars`. -/
def roundedRating (numberToString : ℚ → String) (rating : JsVal) : JNum :=
  let numericRating := (parseFloat numberToString rating).orZero
  JNum.div (JNum.mathRound (JNum.mul numericRating (.fin 2))) (.fin 2)

/-- The function `renderStars(rating, isInteractive)`. -/
def renderStars (numberToString : ℚ → String) (rating : JsVal) (isInteractive : Bool) :
    String :=
  (List.range' 1 5).foldl
    (fun starsHTML i =>
      starsHTML ++ starMarkup (starClass (roundedRating numberToString rating) i) isInteractive i)
    ""

/-! ## The interactive widget -/

/-- An element inside the rating container. -/
structure Element where
  className : String
  dataValue : Option String
  tabindex : Option String
  role : Option String

/-- The container passed to `initializeStarEvents`: its own class and `data-value`,
its inline `pointer-events` and its descendant elements in document order. -/
structure Container where
  className : String
  dataValue : Option String
  pointerEvents : String
  children : List Element

/-- The target of an event: the container itself (`none`) or its `i`-th descendant. -/
abbrev Target := Option ℕ

/-- The element an event was dispatched on, when there is one. -/
def Container.element (c : Container) (t : Target) : Option Element :=
  match t with
  | none => some ⟨c.className, c.dataValue, none, none⟩
  | some i => c.children.get? i

/-- ASCII white space, which separates the tokens of a class attribute. -/
def isClassSpace (c : Char) : Bool :=
  c.toNat = 9 || c.toNat = 10 || c.toNat = 12 || c.toNat = 13 || c.toNat = 32

/-- The tokens of a class attribute, with the token being read carried in `cur`. -/
def classTokens : List Char → List Char → List (List Char)
  | [], cur => if cur.isEmpty then [] else [cur.reverse]
  | c :: rest, cur =>
    if isClassSpace c then
      (if cur.isEmpty then classTokens rest [] else cur.reverse :: classTokens rest [])
    else classTokens rest (c :: cur)

/-- The test `classList.contains(token)`. -/
def classListContains (className : String) (token : String) : Bool :=
  (classTokens className.toList []).contains token.toList

/-- A word character of a regular expression: a letter, a digit or the underscore. -/
def isWordChar (c : Char) : Bool :=
  let n := c.toNat
  (48 ≤ n && n ≤ 57) || (65 ≤ n && n ≤ 90) || (97 ≤ n && n ≤ 122) || n = 95

/-- The text with every match of `/bi-star-\w+/g` removed; `skip` characters at the
head belong to a match already found. -/
def stripStarVariants : ℕ → List Char → List Char
  | _, [] => []
  | skip + 1, _ :: rest => stripStarVariants skip rest
  | 0, c :: rest =>
    let run := ((c :: rest).drop 8).takeWhile isWordChar
    if "bi-star-".toList.isPrefixOf (c :: rest) && !run.isEmpty then
      stripStarVariants (7 + run.length) rest
    else c :: stripStarVariants 0 rest

/-- The class a star gets from `updateStarsDisplay`. -/
def updatedClassName (className : String) (starValue : ℕ) (rating : JNum) : String :=
  String.mk (stripStarVariants 0 className.toList) ++
    (if JNum.le (.fin starValue) rating then " bi-star-fill text-warning"
     else " bi-star text-muted")

/-- The loop of `updateStarsDisplay` over the descendants, `index` counting the
elements of class `rating-star` passed so far. -/
def updateStars (rating : JNum) : ℕ → List Element → List Element
  | _, [] => []
  | index, el :: rest =>
    if classListContains el.className "rating-star" then
      { el with className := updatedClassName el.className (index + 1) rating } ::
        updateStars rating (index + 1) rest
    else el :: updateStars rating index rest

/-- The function `updateStarsDisplay(container, rating)`. -/
def updateStarsDisplay (container : Container) (rating : JNum) : Container :=
  { container with children := updateStars rating 0 container.children }

/-- The widget set up by one call of `initializeStarEvents`: the container, whether a
callback was supplied, the closure variables `currentSelection` and `isSubmitting`,
and two observations of the callback: the arguments of its invocations, oldest first,
and the number of invocations whose promise has not settled. -/
structure Widget where
  container : Container
  onClickCallback : Bool
  currentSelection : JNum
  isSubmitting : Bool
  calls : List JNum
  pending : ℕ

/-- The expression `parseInt(target.getAttribute("data-value"), 10)`; an absent
attribute reads as `null`. -/
def dataValueOf (target : Element) : JNum :=
  parseIntChars (target.dataValue.getD "null").toList 10

/-- The `click` listener. -/
def onClick (s : Widget) (t : Target) : Widget :=
  match s.container.element t with
  | none => s
  | some target =>
    if classListContains target.className "rating-star" && !s.isSubmitting then
      let currentSelection := dataValueOf target
      if currentSelection.truthy && currentSelection.ge (.fin 1) &&
          currentSelection.le (.fin 5) then
        let container :=
          updateStarsDisplay { s.container with pointerEvents := "none" } currentSelection
        if s.onClickCallback then
          { s with currentSelection := currentSelection, isSubmitting := true,
                   container := container,
                   calls := s.calls ++ [currentSelection], pending := s.pending + 1 }
        else
          { s with currentSelection := currentSelection, isSubmitting := true,
                   container := container }
      else { s with currentSelection := currentSelection }
    else s

/-- The `mouseover` listener. -/
def onMouseover (s : Widget) (t : Target) : Widget :=
  match s.container.element t with
  | none => s
  | some target =>
    if classListContains target.className "rating-star" && !s.isSubmitting then
      let hoverValue := dataValueOf target
      if hoverValue.truthy then
        { s with container := updateStarsDisplay s.container hoverValue }
      else s
    else s

/-- The `mouseout` listener. -/
def onMouseout (s : Widget) : Widget :=
  if !s.isSubmitting then
    { s with container := updateStarsDisplay s.container s.currentSelection }
  else s

/-- The `switch` of the `keydown` listener: the new value and the widget after the
case has run. `Enter` and the space key click the focused element, which runs the
`click` listener before the `switch` is left. -/
def keySwitch (s : Widget) (t : Target) (key : String) : JNum × Widget :=
  if key = "ArrowRight" || key = "ArrowUp" then
    (JNum.mathMin (.fin 5) (s.currentSelection.add (.fin 1)), s)
  else if key = "ArrowLeft" || key = "ArrowDown" then
    (JNum.mathMax (.fin 1) (s.currentSelection.sub (.fin 1)), s)
  else if key = "Enter" || key = " " then
    (s.currentSelection, if s.currentSelection.gt (.fin 0) then onClick s t else s)
  else (s.currentSelection, s)

/-- The `keydown` listener. Moving the focus to the new star changes no state the
listeners read (each event carries its own target) and is not recorded. -/
def onKeydown (s : Widget) (t : Target) (key : String) : Widget :=
  if s.isSubmitting then s
  else
    match s.container.element t with
    | none => s
    | some focused =>
      if classListContains focused.className "rating-star" then
        let r := keySwitch s t key
        if !JNum.strictEq r.1 r.2.currentSelection then
          { r.2 with currentSelection := r.1,
                     container := updateStarsDisplay r.2.container r.1 }
        else r.2
      else s

/-- The handler passed to `finally`, run when the promise of an invocation settles. -/
def onSettled (s : Widget) : Widget :=
  if s.pending = 0 then s else { s with isSubmitting := false, pending := s.pending - 1 }

/-- The loop at the end of `initializeStarEvents`: stars become focusable buttons. -/
def makeFocusable : ℕ → List Element → List Element
  | _, [] => []
  | index, el :: rest =>
    if classListContains el.className "rating-star" then
      { el with tabindex := some (if index = 0 then "0" else "-1"), role := some "button" } ::
        makeFocusable (index + 1) rest
    else el :: makeFocusable index rest

/-- The function `initializeStarEvents(container, onClickCallback)`: no widget without
a container. -/
def initializeStarEvents (container : Option Container) (onClickCallback : Bool) :
    Option Widget :=
  match container with
  | none => none
  | some c =>
    some { container := { c with children := makeFocusable 0 c.children },
           onClickCallback := onClickCallback,
           currentSelection := .fin 0, isSubmitting := false, calls := [], pending := 0 }

/-- What can happen to a widget: the four events the listeners are registered for,
the settling of a callback promise (fulfilled or rejected), and any change made to the
container from outside the module, for instance by the callback. -/
inductive WidgetEvent where
  | click (t : Target)
  | mouseover (t : Target)
  | mouseout
  | keydown (t : Target) (key : String)
  | settled (fulfilled : Bool)
  | external (change : Container → Container)

/-- One step of the widget. -/
def step (s : Widget) : WidgetEvent → Widget
  | .click t => onClick s t
  | .mouseover t => onMouseover s t
  | .mouseout => onMouseout s
  | .keydown t key => onKeydown s t key
  | .settled _ => onSettled s
  | .external change => { s with container := change s.container }

/-- The widget after a sequence of events. -/
def run (s : Widget) (events : List WidgetEvent) : Widget := events.foldl step s

/-! ## The retrying fetch -/

/-- The outcome of the attempt made `j` requests after the world `w`: what the oracle
replies to the request numbered `w.requests.length + j`, checked for an ok status. -/
def attemptOutcome (w : World) (req : Request) (j : ℕ) : Except JsError Response :=
  checkResponse (w.net (w.requests.length + j) req).result

/-! ## Vocabulary of the specification, and scenarios -/

/-- A world whose network rejects the first two requests and answers the third with
status 200 and the body `data`. -/
def failFailSucceed (data : JsVal) : World :=
  initialWorld 0 (fun i _ =>
    if i < 2 then ⟨10, .error ⟨"Failed to fetch"⟩⟩ else ⟨10, .ok ⟨200, "OK", .ok data⟩⟩)

/-- A world whose network rejects two requests and answers every later one with
status 503. -/
def failFailFail : World :=
  initialWorld 0 (fun i _ =>
    if i < 2 then ⟨10, .error ⟨"Failed to fetch"⟩⟩
    else ⟨10, .ok ⟨503, "Service Unavailable", .error ⟨"no body"⟩⟩⟩)

/-- A summary as `fetchRatings` can return it: a finite average between 0 and 5, and a
count that is a natural number or `Infinity`. -/
def RatingSummary.InRange (r : RatingSummary) : Prop :=
  (∃ a : ℚ, r.average = .fin a ∧ 0 ≤ a ∧ a ≤ 5) ∧
    ((∃ c : ℕ, r.count = .fin c) ∨ r.count = .posInf)

/-- Every cached summary is one `fetchRatings` can return. -/
def CacheInRange (w : World) : Prop :=
  ∀ key item, mapGet w.data key = some item → item.value.InRange

/-- A printer of Numbers used to run the definitions on examples: the decimal digits of
the integer part. -/
def integerToString (q : ℚ) : String := toString ⌊q⌋

/-- A body whose average is a numeric string above 5 and whose count is a negative
numeric string. -/
def outOfRangeBody : JsVal := .obj [("average", .str "7.5"), ("count", .str "-3")]

/-- A rating within the inclusive range from 1 to 5. -/
def InRatingRange (r : JNum) : Prop := ∃ q : ℚ, r = .fin q ∧ 1 ≤ q ∧ q ≤ 5

/-- A well-formed SubmissionResult: an object whose `status` is `success`, or is
`error` with a `message` string. -/
def WellFormedResult (v : JsVal) : Prop :=
  ∃ fields, v = .obj fields ∧
    (fields.lookup "status" = some (.str "success") ∨
      (fields.lookup "status" = some (.str "error") ∧
        ∃ m, fields.lookup "message" = some (.str m)))

/-- A world with a live cache entry for course 42, whose network answers the IP lookup
with `{"ip": "192.0.2.1"}` and any other request with the given body. -/
def answering (body : JsVal) : World :=
  { now := 1000, DURATION := 300000,
    data := [("ratings_42", ⟨⟨.fin 4, .fin 10⟩, 0⟩)],
    net := fun _ req =>
      if req.method = "POST" then ⟨10, .ok ⟨200, "OK", .ok body⟩⟩
      else ⟨10, .ok ⟨200, "OK", .ok (.obj [("ip", .str "192.0.2.1")])⟩⟩,
    requests := [] }

/-- The rating rounded to the nearest half-unit as the specification words it,
`round(2r)/2`. -/
def nearestHalf (r : JNum) : JNum := JNum.div (JNum.mathRound (JNum.mul r (.fin 2))) (.fin 2)

/-- The container the page fills with `renderStars(0, true)`: five stars of class
`rating-star` with `data-value` 1 to 5. -/
def fiveStars : Container :=
  { className := "", dataValue := none, pointerEvents := "",
    children := (List.range' 1 5).map (fun i =>
      { className := "bi bi-star text-muted rating-star", dataValue := some (toString i),
        tabindex := none, role := none }) }

/-- The four events the listeners are registered for. -/
def WidgetEvent.isUserEvent : WidgetEvent → Bool
  | .click _ => true
  | .mouseover _ => true
  | .mouseout => true
  | .keydown _ _ => true
  | _ => false

/-- At most one invocation of the callback is unsettled, and none unless the widget is
submitting. -/
def OneInFlight (s : Widget) : Prop :=
  s.pending ≤ 1 ∧ (s.isSubmitting = false → s.pending = 0)

/-- The widget `initializeStarEvents` sets up on `fiveStars` with a callback. -/
def starWidget : Widget :=
  { container := { fiveStars with children := makeFocusable 0 fiveStars.children },
    onClickCallback := true, currentSelection := .fin 0, isSubmitting := false,
    calls := [], pending := 0 }

/-- Whether the text `needle` occurs somewhere in `hay`. -/
def occursIn (needle : List Char) : List Char → Bool
  | [] => needle.isEmpty
  | c :: rest => needle.isPrefixOf (c :: rest) || occursIn needle rest

/-- Whether a piece of markup contains the given text. -/
def markupHas (markup text : String) : Bool := occursIn text.toList markup.toList

/-- The value `submitRating` returns once validation has passed, given how the retrying
fetch of the rating request settled. -/
def submitOutcome (settled : Except JsError Response) : JsVal :=
  match settled with
  | .error e => submitFailed e
  | .ok response =>
    match response.json with
    | .error e => submitFailed e
    | .ok result =>
      match result.getProp "status" with
      | .error e => submitFailed e
      | .ok _ => result

/-- A module just loaded whose network rejects every IP lookup and answers the rating
request with status 200 and the given body. -/
def lookupDown (body : JsVal) : World :=
  initialWorld 0 (fun _ req =>
    if req.method = "POST" then ⟨10, .ok ⟨200, "OK", .ok body⟩⟩
    else ⟨10, .error ⟨"Failed to fetch"⟩⟩)

/-! ## The page controller (assets/js/course-details.js) -/

/-- The part of the course page that `waitForRatingSystem` and the end of
`initializePage` act on: whether `RatingSystem` is defined with its functions, the
element `user-rating-stars` when the page has it, whether the `RatingSystemReady`
listener `onReady` is registered, whether the polling interval is running, how often
`loadRealRatings` and `setupInteractiveRatings` have run, and the widgets whose
listeners `initializeStarEvents` has attached to the container, oldest first. The
listeners share the container of the page; the `container` field of a listed widget
is the container as its listeners last left it. -/
structure Page where
  ratingSystem : Bool
  ratingStarsContainer : Option Container
  onReady : Bool
  poll : Bool
  loadRealRatingsRuns : ℕ
  setupInteractiveRatingsRuns : ℕ
  listeners : List Widget

/-- The elements the markup of the local fallback `renderStars(0)` parses to. -/
def fallbackStars : List Element :=
  List.replicate 5 ⟨"bi bi-star text-muted", none, none, none⟩

/-- One run of `loadRealRatings`. Its body, which fetches the ratings and fills the
rating display, attaches nothing to the rating container and is not modelled. -/
def loadRealRatings (p : Page) : Page :=
  { p with loadRealRatingsRuns := p.loadRealRatingsRuns + 1 }

/-- The function `setupInteractiveRatings`: without the container nothing is done; with
`RatingSystem` the container is filled with the elements of `renderStars(0, true)` and
`initializeStarEvents` attaches a new set of listeners; otherwise the container is
filled with the static fallback stars. -/
def setupInteractiveRatings (p : Page) : Page :=
  match p.ratingStarsContainer with
  | none => { p with setupInteractiveRatingsRuns := p.setupInteractiveRatingsRuns + 1 }
  | some c =>
    if p.ratingSystem then
      match initializeStarEvents (some { c with children := fiveStars.children }) true with
      | some w =>
        { p with setupInteractiveRatingsRuns := p.setupInteractiveRatingsRuns + 1,
                 ratingStarsContainer := some w.container,
                 listeners := p.listeners ++ [w] }
      | none => { p with setupInteractiveRatingsRuns := p.setupInteractiveRatingsRuns + 1 }
    else
      { p with setupInteractiveRatingsRuns := p.setupInteractiveRatingsRuns + 1,
               ratingStarsContainer := some { c with children := fallbackStars } }

/-- The function `waitForRatingSystem`: with `RatingSystem` defined both functions run
at once; otherwise `onReady` is registered and the polling interval started. -/
def waitForRatingSystem (p : Page) : Page :=
  if p.ratingSystem then setupInteractiveRatings (loadRealRatings p)
  else { p with onReady := true, poll := true }

/-- The end of `initializePage`, reached for a valid course: the call of
`waitForRatingSystem` followed by the `if` on `RatingSystem`. -/
def initializePage (p : Page) : Page :=
  let p1 := waitForRatingSystem p
  if p1.ratingSystem then setupInteractiveRatings (loadRealRatings p1) else p1

/-- The listener `onReady`: it removes itself and runs both functions. -/
def onReadyEvent (p : Page) : Page :=
  if p.onReady then setupInteractiveRatings (loadRealRatings { p with onReady := false })
  else p

/-- One tick of the polling interval: once `RatingSystem` is defined the interval is
cleared, `onReady` is removed and both functions run. -/
def pollTick (p : Page) : Page :=
  if p.poll && p.ratingSystem then
    setupInteractiveRatings (loadRealRatings { p with poll := false, onReady := false })
  else p

/-- The script `ratings-system.js` has run: `RatingSystem` is defined. -/
def scriptLoaded (p : Page) : Page := { p with ratingSystem := true }

/-- The `click` listeners of the widgets run in the order they were attached, each on
the container as the one before left it. -/
def clickListeners (t : Target) : Container → List Widget → Container × List Widget
  | c, [] => (c, [])
  | c, w :: rest =>
    let w1 := onClick { w with container := c } t
    let r := clickListeners t w1.container rest
    (r.1, w1 :: r.2)

/-- A click inside the rating container. -/
def dispatchClick (p : Page) (t : Target) : Page :=
  match p.ratingStarsContainer with
  | none => p
  | some c =>
    { p with ratingStarsContainer := some (clickListeners t c p.listeners).1,
             listeners := (clickListeners t c p.listeners).2 }

/-- The calls of `RatingSystem.submitRating`: the callback that
`setupInteractiveRatings` passes to `initializeStarEvents` calls it once per
invocation, with the rating it was invoked with. -/
def submitRatingCalls (p : Page) : List JNum :=
  p.listeners.foldr (fun w acc => w.calls ++ acc) []

/-- The page when `DOMContentLoaded` fires for a valid course: the rating container is
in the document and empty, nothing has run yet. -/
def pageAtLoad (ratingSystem : Bool) : Page :=
  { ratingSystem := ratingSystem,
    ratingStarsContainer := some ⟨"fs-2", none, "", []⟩,
    onReady := false, poll := false, loadRealRatingsRuns := 0,
    setupInteractiveRatingsRuns := 0, listeners := [] }

/-- A body whose count is the digit 1 followed by 309 zeros, a value beyond the range of
a Number. -/
def hugeCountBody : JsVal :=
  .obj [("average", .str "4.5"), ("count", .str (String.mk ('1' :: List.replicate 309 '0')))]

/-! ## Lemmas on the retrying fetch -/

theorem fetch_requests (w : World) (req : Request) :
    (fetch w req).2.requests = w.requests ++ [req] := rfl

theorem fetch_net (w : World) (req : Request) : (fetch w req).2.net = w.net := rfl

theorem fetch_data (w : World) (req : Request) : (fetch w req).2.data = w.data := rfl

theorem fetch_duration (w : World) (req : Request) :
    (fetch w req).2.DURATION = w.DURATION := rfl

theorem fetch_result (w : World) (req : Request) :
    checkResponse (fetch w req).1 = attemptOutcome w req 0 := rfl

/-- The world in which the next iteration of the retry loop starts after a failed
attempt. -/
theorem attemptOutcome_after_failure (w : World) (req : Request) (b : Bool) (ms j : ℕ) :
    attemptOutcome (if b then sleep (fetch w req).2 ms else (fetch w req).2) req j =
      attemptOutcome w req (j + 1) := by
  cases b <;> simp [attemptOutcome, sleep, fetch, Nat.add_assoc, Nat.add_comm 1 j]

theorem requests_after_failure (w : World) (req : Request) (b : Bool) (ms : ℕ) :
    (if b then sleep (fetch w req).2 ms else (fetch w req).2).requests = w.requests ++ [req] := by
  cases b <;> rfl

/-- The loop returns the first ok response, after as many requests as it took. -/
theorem loop_first_ok (req : Request) (n : ℕ) :
    ∀ (remaining attempt : ℕ) (last : Option JsError) (w : World) (k : ℕ) (response : Response),
      k < remaining →
      (∀ j, j < k → ∃ e, attemptOutcome w req j = .error e) →
      attemptOutcome w req k = .ok response →
      (fetchWithRetryLoop req n remaining attempt last w).1 = .ok response ∧
      (fetchWithRetryLoop req n remaining attempt last w).2.requests =
        w.requests ++ List.replicate (k + 1) req := by
  intro remaining
  induction remaining with
  | zero => intro _ _ _ k _ hk; omega
  | succ m ih =>
    intro attempt last w k response hk hfail hok
    cases k with
    | zero =>
      have h0 : checkResponse (fetch w req).1 = .ok response := by
        rw [fetch_result]; exact hok
      constructor
      · simp only [fetchWithRetryLoop, h0]
      · simp only [fetchWithRetryLoop, h0, fetch_requests, List.replicate]
    | succ k =>
      obtain ⟨e, he⟩ := hfail 0 (Nat.succ_pos k)
      have h0 : checkResponse (fetch w req).1 = .error e := by
        rw [fetch_result]; exact he
      simp only [fetchWithRetryLoop, h0]
      have := ih (attempt + 1) (some e)
        (if attempt < n then sleep (fetch w req).2 (1000 * (attempt + 1)) else (fetch w req).2)
        k response (by omega)
        (by
          intro j hj
          have := hfail (j + 1) (by omega)
          rw [← attemptOutcome_after_failure w req (decide (attempt < n)) (1000 * (attempt + 1)) j] at this
          simpa using this)
        (by
          rw [← attemptOutcome_after_failure w req (decide (attempt < n)) (1000 * (attempt + 1)) k] at hok
          simpa using hok)
      refine ⟨this.1, ?_⟩
      rw [this.2]
      have hr := requests_after_failure w req (decide (attempt < n)) (1000 * (attempt + 1))
      simp only [decide_eq_true_eq] at hr
      rw [hr, List.append_assoc]
      rfl


/-- The loop throws the error of its last attempt when every attempt fails. -/
theorem loop_all_fail (req : Request) (n : ℕ) :
    ∀ (m attempt : ℕ) (last : Option JsError) (w : World) (e : JsError),
      (∀ j, j < m → ∃ e1, attemptOutcome w req j = .error e1) →
      attemptOutcome w req m = .error e →
      (fetchWithRetryLoop req n (m + 1) attempt last w).1 = .error e ∧
      (fetchWithRetryLoop req n (m + 1) attempt last w).2.requests =
        w.requests ++ List.replicate (m + 1) req := by
  intro m
  induction m with
  | zero =>
    intro attempt last w e _ hlast
    have h0 : checkResponse (fetch w req).1 = .error e := by
      rw [fetch_result]; exact hlast
    constructor
    · simp [fetchWithRetryLoop, h0]
    · simp only [fetchWithRetryLoop, h0]
      split <;> rfl
  | succ m ih =>
    intro attempt last w e hfail hlast
    obtain ⟨e0, he0⟩ := hfail 0 (Nat.succ_pos m)
    have h0 : checkResponse (fetch w req).1 = .error e0 := by
      rw [fetch_result]; exact he0
    have hr := requests_after_failure w req (decide (attempt < n)) (1000 * (attempt + 1))
    simp only [decide_eq_true_eq] at hr
    have := ih (attempt + 1) (some e0)
      (if attempt < n then sleep (fetch w req).2 (1000 * (attempt + 1)) else (fetch w req).2) e
      (by
        intro j hj
        have := hfail (j + 1) (by omega)
        rw [← attemptOutcome_after_failure w req (decide (attempt < n)) (1000 * (attempt + 1)) j] at this
        simpa using this)
      (by
        rw [← attemptOutcome_after_failure w req (decide (attempt < n)) (1000 * (attempt + 1)) m] at hlast
        simpa using hlast)
    rw [fetchWithRetryLoop]
    simp only [h0]
    refine ⟨this.1, ?_⟩
    rw [this.2, hr, List.append_assoc]
    rfl

/-- The retry loop touches neither the cache nor the oracle, and only appends copies
of its request to the log: at least one when it runs at all, at most one per
iteration. -/
theorem loop_frame (req : Request) (n : ℕ) :
    ∀ (remaining attempt : ℕ) (last : Option JsError) (w : World),
      (fetchWithRetryLoop req n remaining attempt last w).2.data = w.data ∧
      (fetchWithRetryLoop req n remaining attempt last w).2.DURATION = w.DURATION ∧
      (fetchWithRetryLoop req n remaining attempt last w).2.net = w.net ∧
      ∃ m, m ≤ remaining ∧ (0 < remaining → 0 < m) ∧
        (fetchWithRetryLoop req n remaining attempt last w).2.requests =
          w.requests ++ List.replicate m req := by
  intro remaining
  induction remaining with
  | zero =>
    intro attempt last w
    exact ⟨rfl, rfl, rfl, 0, le_refl _, by simp, by simp [fetchWithRetryLoop]⟩
  | succ k ih =>
    intro attempt last w
    rw [fetchWithRetryLoop]
    cases h0 : checkResponse (fetch w req).1 with
    | ok response =>
      exact ⟨rfl, rfl, rfl, 1, by omega, by simp, rfl⟩
    | error e =>
      simp only
      obtain ⟨hd, hD, hn, m, hm, _, hreq⟩ := ih (attempt + 1) (some e)
        (if attempt < n then sleep (fetch w req).2 (1000 * (attempt + 1)) else (fetch w req).2)
      have hr := requests_after_failure w req (decide (attempt < n)) (1000 * (attempt + 1))
      simp only [decide_eq_true_eq] at hr
      refine ⟨?_, ?_, ?_, m + 1, by omega, by simp, ?_⟩
      · rw [hd]; split <;> rfl
      · rw [hD]; split <;> rfl
      · rw [hn]; split <;> rfl
      · rw [hreq, hr, List.append_assoc]; rfl


/-! ## Lemmas on normalisation and on the cache -/

theorem orZero_fin (q : ℚ) : (JNum.fin q).orZero = .fin q := by
  unfold JNum.orZero JNum.truthy
  by_cases h : q = 0 <;> simp [h]

theorem mathMin_fin (a b : ℚ) :
    JNum.mathMin (.fin a) (.fin b) = .fin (if a ≤ b then a else b) := by
  unfold JNum.mathMin
  by_cases h : a ≤ b <;> simp [JNum.le, h]

theorem mathMax_fin (a b : ℚ) :
    JNum.mathMax (.fin a) (.fin b) = .fin (if a ≤ b then b else a) := by
  unfold JNum.mathMax
  by_cases h : a ≤ b <;> simp [JNum.le, h]

/-- The clamp applied to `average`, case by case. -/
theorem clampAverage (x : JNum) :
    (x = .nan → JNum.mathMax (.fin 0) (JNum.mathMin (.fin 5) x.orZero) = .fin 0) ∧
    (x = .negInf → JNum.mathMax (.fin 0) (JNum.mathMin (.fin 5) x.orZero) = .fin 0) ∧
    (x = .posInf → JNum.mathMax (.fin 0) (JNum.mathMin (.fin 5) x.orZero) = .fin 5) ∧
    (∀ a, x = .fin a → 5 < a →
      JNum.mathMax (.fin 0) (JNum.mathMin (.fin 5) x.orZero) = .fin 5) ∧
    (∀ a, x = .fin a → a < 0 →
      JNum.mathMax (.fin 0) (JNum.mathMin (.fin 5) x.orZero) = .fin 0) ∧
    (∀ a, x = .fin a → 0 ≤ a → a ≤ 5 →
      JNum.mathMax (.fin 0) (JNum.mathMin (.fin 5) x.orZero) = .fin a) := by
  refine ⟨?_, ?_, ?_, ?_, ?_, ?_⟩
  · rintro rfl
    simp [JNum.orZero, JNum.truthy, mathMin_fin, mathMax_fin]
  · rintro rfl
    simp [JNum.orZero, JNum.truthy, JNum.mathMin, JNum.mathMax, JNum.le]
  · rintro rfl
    simp [JNum.orZero, JNum.truthy, JNum.mathMin, JNum.mathMax, JNum.le]
  · rintro a rfl h
    rw [orZero_fin, mathMin_fin, mathMax_fin]
    have h1 : (5 : ℚ) ≤ a := le_of_lt h
    simp [h1]
  · rintro a rfl h
    rw [orZero_fin, mathMin_fin, mathMax_fin]
    have h1 : ¬ (5 : ℚ) ≤ a := by linarith
    have h2 : ¬ (0 : ℚ) ≤ a := by linarith
    simp [h1, h2]
  · rintro a rfl h0 h5
    rw [orZero_fin, mathMin_fin, mathMax_fin]
    by_cases h : (5 : ℚ) ≤ a
    · have : a = 5 := le_antisymm h5 h
      simp [this]
    · simp [h, h0]

theorem clampAverage_range (x : JNum) :
    ∃ a : ℚ, JNum.mathMax (.fin 0) (JNum.mathMin (.fin 5) x.orZero) = .fin a ∧ 0 ≤ a ∧ a ≤ 5 := by
  obtain ⟨h1, h2, h3, h4, h5, h6⟩ := clampAverage x
  cases x with
  | nan => exact ⟨0, h1 rfl, le_refl _, by norm_num⟩
  | negInf => exact ⟨0, h2 rfl, le_refl _, by norm_num⟩
  | posInf => exact ⟨5, h3 rfl, by norm_num, le_refl _⟩
  | fin a =>
    rcases lt_or_le a 0 with h | h
    · exact ⟨0, h5 a rfl h, le_refl _, by norm_num⟩
    · rcases le_or_lt a 5 with h' | h'
      · exact ⟨a, h6 a rfl h h', h, h'⟩
      · exact ⟨5, h4 a rfl h', by norm_num, le_refl _⟩

/-- The floor applied to `count`, case by case. -/
theorem floorCount (x : JNum) :
    (x = .nan → JNum.mathMax (.fin 0) x.orZero = .fin 0) ∧
    (x = .negInf → JNum.mathMax (.fin 0) x.orZero = .fin 0) ∧
    (x = .posInf → JNum.mathMax (.fin 0) x.orZero = .posInf) ∧
    (∀ c, x = .fin c → c < 0 → JNum.mathMax (.fin 0) x.orZero = .fin 0) ∧
    (∀ c, x = .fin c → 0 ≤ c → JNum.mathMax (.fin 0) x.orZero = .fin c) := by
  refine ⟨?_, ?_, ?_, ?_, ?_⟩
  · rintro rfl
    simp [JNum.orZero, JNum.truthy, mathMax_fin]
  · rintro rfl
    simp [JNum.orZero, JNum.truthy, JNum.mathMax, JNum.le]
  · rintro rfl
    simp [JNum.orZero, JNum.truthy, JNum.mathMax, JNum.le]
  · rintro c rfl h
    rw [orZero_fin, mathMax_fin]
    have : ¬ (0 : ℚ) ≤ c := by linarith
    simp [this]
  · rintro c rfl h
    rw [orZero_fin, mathMax_fin]
    simp [h]

theorem ofNatural_cases (n : ℕ) : JNum.ofNatural n = .fin n ∨ JNum.ofNatural n = .posInf := by
  unfold JNum.ofNatural
  split
  · exact Or.inr rfl
  · exact Or.inl rfl

theorem parseIntDigits_int (cs : List Char) (radix : ℕ) :
    parseIntDigits cs radix = .nan ∨ (∃ n : ℕ, parseIntDigits cs radix = .fin n) ∨
      parseIntDigits cs radix = .posInf := by
  unfold parseIntDigits
  simp only
  split
  · exact Or.inl rfl
  · rcases ofNatural_cases (digitsValue (radixAndRest cs radix).1
      (List.takeWhile (isRadixDigit (radixAndRest cs radix).1) (radixAndRest cs radix).2))
      with h | h
    · exact Or.inr (Or.inl ⟨_, h⟩)
    · exact Or.inr (Or.inr h)

/-- The built-in `parseInt` yields `NaN`, an integer or an infinity. -/
theorem parseIntChars_int (cs : List Char) (radix : ℕ) :
    parseIntChars cs radix = .nan ∨ (∃ z : ℤ, parseIntChars cs radix = .fin z) ∨
      parseIntChars cs radix = .posInf ∨ parseIntChars cs radix = .negInf := by
  have hneg : ∀ r, JNum.neg (parseIntDigits r radix) = .nan ∨
      (∃ z : ℤ, JNum.neg (parseIntDigits r radix) = .fin z) ∨
      JNum.neg (parseIntDigits r radix) = .posInf ∨
      JNum.neg (parseIntDigits r radix) = .negInf := by
    intro r
    rcases parseIntDigits_int r radix with h | ⟨n, h⟩ | h
    · left; rw [h]; rfl
    · right; left; exact ⟨-(n : ℤ), by rw [h]; simp [JNum.neg]⟩
    · right; right; right; rw [h]; rfl
  have hpos : ∀ r, parseIntDigits r radix = .nan ∨
      (∃ z : ℤ, parseIntDigits r radix = .fin z) ∨
      parseIntDigits r radix = .posInf ∨ parseIntDigits r radix = .negInf := by
    intro r
    rcases parseIntDigits_int r radix with h | ⟨n, h⟩ | h
    · exact Or.inl h
    · exact Or.inr (Or.inl ⟨n, by rw [h]; simp⟩)
    · exact Or.inr (Or.inr (Or.inl h))
  unfold parseIntChars
  split
  · exact Or.inl rfl
  · split
    · exact hneg _
    · exact hpos _
    · exact hpos _

theorem floorCount_range (cs : List Char) (radix : ℕ) :
    (∃ c : ℕ, JNum.mathMax (.fin 0) (parseIntChars cs radix).orZero = .fin c) ∨
      JNum.mathMax (.fin 0) (parseIntChars cs radix).orZero = .posInf := by
  obtain ⟨h1, h2, h3, h4, h5⟩ := floorCount (parseIntChars cs radix)
  rcases parseIntChars_int cs radix with h | ⟨z, h⟩ | h | h
  · exact Or.inl ⟨0, by rw [h1 h]; simp⟩
  · rcases lt_or_le z 0 with hz | hz
    · exact Or.inl ⟨0, by rw [h4 z h (by exact_mod_cast hz)]; simp⟩
    · refine Or.inl ⟨z.toNat, ?_⟩
      rw [h5 z h (by exact_mod_cast hz)]
      congr 1
      exact_mod_cast (Int.toNat_of_nonneg hz).symm
  · exact Or.inr (h3 h)
  · exact Or.inl ⟨0, by rw [h2 h]; simp⟩

theorem normalizeRatings_inRange (nts : ℚ → String) (data : JsVal) (r : RatingSummary)
    (h : normalizeRatings nts data = .ok r) : r.InRange := by
  unfold normalizeRatings at h
  split at h
  · cases h
  · split at h
    · cases h
    · cases h
      exact ⟨clampAverage_range _, floorCount_range _ _⟩


theorem mapGet_mapDelete_self (m : List (String × CacheItem)) (key : String) :
    mapGet (mapDelete m key) key = none := by
  induction m with
  | nil => rfl
  | cons p rest ih =>
    obtain ⟨k, item⟩ := p
    by_cases h : k = key <;> simp [mapDelete, mapGet, h, ih]

theorem mapGet_mapDelete_other (m : List (String × CacheItem)) (key other : String)
    (hne : other ≠ key) : mapGet (mapDelete m key) other = mapGet m other := by
  have hne2 : key ≠ other := fun h => hne h.symm
  induction m with
  | nil => rfl
  | cons p rest ih =>
    obtain ⟨k, item⟩ := p
    by_cases h : k = key
    · subst h
      simp [mapDelete, mapGet, ih, hne2]
    · by_cases h2 : k = other
      · subst h2
        simp [mapDelete, mapGet, hne]
      · simp [mapDelete, mapGet, h, h2, ih]

theorem mapGet_mapSet_self (m : List (String × CacheItem)) (key : String) (item : CacheItem) :
    mapGet (mapSet m key item) key = some item := by
  induction m with
  | nil => simp [mapSet, mapGet]
  | cons p rest ih =>
    obtain ⟨k, old⟩ := p
    by_cases h : k = key <;> simp [mapSet, mapGet, h, ih]

theorem mapGet_mapSet_other (m : List (String × CacheItem)) (key other : String)
    (item : CacheItem) (hne : other ≠ key) :
    mapGet (mapSet m key item) other = mapGet m other := by
  have hne2 : key ≠ other := fun h => hne h.symm
  induction m with
  | nil => simp [mapSet, mapGet, hne2]
  | cons p rest ih =>
    obtain ⟨k, old⟩ := p
    by_cases h : k = key
    · subst h
      simp [mapSet, mapGet, hne2]
    · by_cases h2 : k = other
      · subst h2
        simp [mapSet, mapGet, hne]
      · simp [mapSet, mapGet, h, h2, ih]

theorem cacheGet_some (w : World) (key : String) (v : RatingSummary)
    (h : (cacheGet w key).1 = some v) :
    ∃ item, mapGet w.data key = some item ∧ item.value = v ∧
      w.now - item.timestamp < w.DURATION ∧ (cacheGet w key).2 = w := by
  unfold cacheGet at h ⊢
  cases hm : mapGet w.data key with
  | none => simp [hm] at h
  | some item =>
    by_cases ht : w.now - item.timestamp < w.DURATION
    · simp only [hm, ht, if_true] at h
      refine ⟨item, rfl, by simpa using h, ht, ?_⟩
      simp [hm, ht]
    · simp [hm, ht] at h

theorem cacheGet_none (w : World) (key : String) (h : (cacheGet w key).1 = none) :
    (cacheGet w key).2 = { w with data := mapDelete w.data key } := by
  unfold cacheGet at h ⊢
  cases hm : mapGet w.data key with
  | none => rfl
  | some item =>
    by_cases ht : w.now - item.timestamp < w.DURATION
    · simp [hm, ht] at h
    · simp [hm, ht]

theorem cacheGet_hit (w : World) (key : String) (item : CacheItem)
    (hm : mapGet w.data key = some item) (ht : w.now - item.timestamp < w.DURATION) :
    cacheGet w key = (some item.value, w) := by
  simp [cacheGet, hm, ht]

theorem cacheGet_expired (w : World) (key : String) (item : CacheItem)
    (hm : mapGet w.data key = some item) (ht : w.DURATION ≤ w.now - item.timestamp) :
    cacheGet w key = (none, { w with data := mapDelete w.data key }) := by
  have : ¬ w.now - item.timestamp < w.DURATION := not_lt.mpr ht
  simp [cacheGet, hm, this]

theorem cacheGet_absent (w : World) (key : String) (hm : mapGet w.data key = none) :
    cacheGet w key = (none, { w with data := mapDelete w.data key }) := by
  simp [cacheGet, hm]

theorem fetchWithRetry_data (w : World) (req : Request) (n : ℕ) :
    (fetchWithRetry w req n).2.data = w.data :=
  (loop_frame req n (n + 1) 0 none w).1

theorem fetchWithRetry_duration (w : World) (req : Request) (n : ℕ) :
    (fetchWithRetry w req n).2.DURATION = w.DURATION :=
  (loop_frame req n (n + 1) 0 none w).2.1

theorem fetchWithRetry_requests (w : World) (req : Request) (n : ℕ) :
    ∃ m, 0 < m ∧ m ≤ n + 1 ∧
      (fetchWithRetry w req n).2.requests = w.requests ++ List.replicate m req := by
  obtain ⟨_, _, _, m, hm, hpos, hreq⟩ := loop_frame req n (n + 1) 0 none w
  exact ⟨m, hpos (Nat.succ_pos n), hm, hreq⟩

theorem cacheInRange_delete (w : World) (key : String) (h : CacheInRange w) :
    CacheInRange { w with data := mapDelete w.data key } := by
  intro k item hk
  by_cases hkk : k = key
  · subst hkk
    rw [show ({ w with data := mapDelete w.data k } : World).data = mapDelete w.data k from rfl,
      mapGet_mapDelete_self] at hk
    cases hk
  · rw [show ({ w with data := mapDelete w.data key } : World).data = mapDelete w.data key
      from rfl, mapGet_mapDelete_other _ _ _ hkk] at hk
    exact h k item hk

theorem cacheInRange_set (w : World) (key : String) (r : RatingSummary)
    (h : CacheInRange w) (hr : r.InRange) : CacheInRange (cacheSet w key r) := by
  intro k item hk
  by_cases hkk : k = key
  · subst hkk
    rw [show (cacheSet w k r).data = mapSet w.data k ⟨r, w.now⟩ from rfl,
      mapGet_mapSet_self] at hk
    cases hk
    exact hr
  · rw [show (cacheSet w key r).data = mapSet w.data key ⟨r, w.now⟩ from rfl,
      mapGet_mapSet_other _ _ _ _ hkk] at hk
    exact h k item hk

theorem cacheInRange_of_data (w v : World) (hd : v.data = w.data) (h : CacheInRange w) :
    CacheInRange v := by
  intro k item hk
  rw [hd] at hk
  exact h k item hk

theorem zeroSummary_inRange : zeroSummary.InRange :=
  ⟨⟨0, rfl, le_refl _, by norm_num⟩, Or.inl ⟨0, by simp [zeroSummary]⟩⟩

/-- What `fetchRatings` does on a cache miss, in terms of the retrying fetch. -/
theorem fetchRatings_miss (nts : ℚ → String) (w : World) (courseId : JsVal)
    (hc : courseId.truthy = true)
    (hmiss : (cacheGet w (cacheKey nts courseId)).1 = none) :
    fetchRatings nts w courseId =
      match fetchWithRetry { w with data := mapDelete w.data (cacheKey nts courseId) }
          (ratingsRequest nts courseId) 2 with
      | (.error _, w2) => (.ok zeroSummary, w2)
      | (.ok response, w2) =>
        match response.json with
        | .error _ => (.ok zeroSummary, w2)
        | .ok data =>
          match normalizeRatings nts data with
          | .error _ => (.ok zeroSummary, w2)
          | .ok ratings => (.ok ratings, cacheSet w2 (cacheKey nts courseId) ratings) := by
  have h2 := cacheGet_none w _ hmiss
  unfold fetchRatings
  simp only [hc, Bool.not_true, Bool.false_eq_true, if_false]
  generalize hcg : cacheGet w (cacheKey nts courseId) = cg at hmiss h2
  obtain ⟨c, w1⟩ := cg
  simp only at hmiss h2
  subst hmiss
  subst h2
  rfl

theorem fetchRatings_falsy (nts : ℚ → String) (w : World) (courseId : JsVal)
    (hc : courseId.truthy = false) : fetchRatings nts w courseId = (.ok zeroSummary, w) := by
  simp [fetchRatings, hc]

/-- What `fetchRatings` does on a cache hit. -/
theorem fetchRatings_hit (nts : ℚ → String) (w : World) (courseId : JsVal)
    (hc : courseId.truthy = true) (v : RatingSummary)
    (hhit : (cacheGet w (cacheKey nts courseId)).1 = some v) :
    fetchRatings nts w courseId = (.ok v, w) := by
  obtain ⟨item, _, _, _, hw⟩ := cacheGet_some w _ v hhit
  unfold fetchRatings
  simp only [hc, Bool.not_true, Bool.false_eq_true, if_false]
  generalize cacheGet w (cacheKey nts courseId) = cg at hhit hw
  obtain ⟨c, w1⟩ := cg
  simp only at hhit hw
  subst hhit
  subst hw
  rfl

theorem fetchRatings_ok_inRange (nts : ℚ → String) (w : World) (courseId : JsVal)
    (hcache : CacheInRange w) :
    ∃ r, (fetchRatings nts w courseId).1 = .ok r ∧ r.InRange ∧
      CacheInRange (fetchRatings nts w courseId).2 := by
  cases hc : courseId.truthy with
  | false =>
    rw [fetchRatings_falsy nts w courseId hc]
    exact ⟨zeroSummary, rfl, zeroSummary_inRange, hcache⟩
  | true =>
    cases hcg : (cacheGet w (cacheKey nts courseId)).1 with
    | some v =>
      rw [fetchRatings_hit nts w courseId hc v hcg]
      obtain ⟨item, hm, hv, _, _⟩ := cacheGet_some w _ v hcg
      exact ⟨v, rfl, hv ▸ hcache _ item hm, hcache⟩
    | none =>
      rw [fetchRatings_miss nts w courseId hc hcg]
      have hw1 := cacheInRange_delete w (cacheKey nts courseId) hcache
      have hd := fetchWithRetry_data
        { w with data := mapDelete w.data (cacheKey nts courseId) } (ratingsRequest nts courseId) 2
      generalize fetchWithRetry { w with data := mapDelete w.data (cacheKey nts courseId) }
        (ratingsRequest nts courseId) 2 = fr at hd
      obtain ⟨res, w2⟩ := fr
      have hw2 : CacheInRange w2 := cacheInRange_of_data _ w2 hd hw1
      cases res with
      | error e => exact ⟨zeroSummary, rfl, zeroSummary_inRange, hw2⟩
      | ok response =>
        simp only
        cases hj : response.json with
        | error e => exact ⟨zeroSummary, rfl, zeroSummary_inRange, hw2⟩
        | ok data =>
          simp only
          cases hn : normalizeRatings nts data with
          | error e => exact ⟨zeroSummary, rfl, zeroSummary_inRange, hw2⟩
          | ok ratings =>
            have hr := normalizeRatings_inRange nts data ratings hn
            exact ⟨ratings, rfl, hr, cacheInRange_set w2 _ ratings hw2 hr⟩

/-- On a cache miss answered by a response whose parsed body yields both fields,
`fetchRatings` returns the normalised fields. -/
theorem fetchRatings_fresh (nts : ℚ → String) (w : World) (courseId : JsVal)
    (response : Response) (data average count : JsVal)
    (hc : courseId.truthy = true)
    (hmiss : (cacheGet w (cacheKey nts courseId)).1 = none)
    (hfetch : (fetchWithRetry (cacheGet w (cacheKey nts courseId)).2
      (ratingsRequest nts courseId) 2).1 = .ok response)
    (hjson : response.json = .ok data)
    (havg : data.getProp "average" = .ok average)
    (hcnt : data.getProp "count" = .ok count) :
    (fetchRatings nts w courseId).1 = .ok
      { average := JNum.mathMax (.fin 0) (JNum.mathMin (.fin 5) (parseFloat nts average).orZero),
        count := JNum.mathMax (.fin 0) (parseInt nts count 0).orZero } ∧
    (fetchRatings nts w courseId).2 =
      cacheSet (fetchWithRetry (cacheGet w (cacheKey nts courseId)).2
        (ratingsRequest nts courseId) 2).2 (cacheKey nts courseId)
      { average := JNum.mathMax (.fin 0) (JNum.mathMin (.fin 5) (parseFloat nts average).orZero),
        count := JNum.mathMax (.fin 0) (parseInt nts count 0).orZero } := by
  rw [fetchRatings_miss nts w courseId hc hmiss]
  rw [cacheGet_none w _ hmiss] at hfetch ⊢
  generalize fetchWithRetry { w with data := mapDelete w.data (cacheKey nts courseId) }
    (ratingsRequest nts courseId) 2 = fr at hfetch
  obtain ⟨res, w2⟩ := fr
  simp only at hfetch
  subst hfetch
  simp [hjson, normalizeRatings, havg, hcnt]

theorem overflowBound_eq : JNum.overflowBound = 2 ^ 1024 - 2 ^ 970 := by
  norm_num [JNum.overflowBound]

theorem ofMagnitude_small (q : ℚ) (h : q < 2 ^ 1023) : JNum.ofMagnitude q = .fin q := by
  unfold JNum.ofMagnitude
  have hb : ¬ ((JNum.overflowBound : ℚ) ≤ q) := by
    rw [overflowBound_eq]
    intro hc
    have : (2 : ℚ) ^ 1023 ≤ ((2 ^ 1024 - 2 ^ 970 : ℕ) : ℚ) := by norm_num
    linarith
  rw [if_neg hb]

theorem ofNatural_small (n : ℕ) (h : n < 2 ^ 1023) : JNum.ofNatural n = .fin n := by
  unfold JNum.ofNatural
  have hb : ¬ (JNum.overflowBound ≤ n) := by
    rw [overflowBound_eq]
    intro hc
    have : 2 ^ 1023 ≤ 2 ^ 1024 - 2 ^ 970 := by norm_num
    omega
  rw [if_neg hb]

theorem parseFloat_sample (nts : ℚ → String) :
    parseFloat nts (.str "7.5") = .fin (15 / 2) := by
  have h : JNum.ofMagnitude (15 / 2) = .fin (15 / 2) := ofMagnitude_small _ (by norm_num)
  simp [parseFloat, JsVal.toStr, parseFloatChars, readDecimal, readUnsignedDecimal,
    readExponent, digitsValue, digitValue, isDecimalDigit, isStrWhiteSpace, List.isPrefixOf]
  norm_num
  exact h

theorem parseInt_sample (nts : ℚ → String) : parseInt nts (.str "-3") 0 = .fin (-3) := by
  rfl

theorem fetchWithRetry_first_ok (w : World) (req : Request) (n k : ℕ) (response : Response)
    (hk : k ≤ n) (hfail : ∀ j, j < k → ∃ e, attemptOutcome w req j = .error e)
    (hok : attemptOutcome w req k = .ok response) :
    (fetchWithRetry w req n).1 = .ok response ∧
    (fetchWithRetry w req n).2.requests = w.requests ++ List.replicate (k + 1) req :=
  loop_first_ok req n (n + 1) 0 none w k response (by omega) hfail hok

theorem fetchWithRetry_all_fail (w : World) (req : Request) (n : ℕ) (e : JsError)
    (hfail : ∀ j, j < n → ∃ e1, attemptOutcome w req j = .error e1)
    (hlast : attemptOutcome w req n = .error e) :
    (fetchWithRetry w req n).1 = .error e ∧
    (fetchWithRetry w req n).2.requests = w.requests ++ List.replicate (n + 1) req :=
  loop_all_fail req n n 0 none w e hfail hlast

/-- On a cache miss `fetchRatings` goes to the network: between one and three copies
of its request are appended to the log. -/
theorem fetchRatings_miss_requests (nts : ℚ → String) (w : World) (courseId : JsVal)
    (hc : courseId.truthy = true)
    (hmiss : (cacheGet w (cacheKey nts courseId)).1 = none) :
    ∃ m, 0 < m ∧ m ≤ 3 ∧
      (fetchRatings nts w courseId).2.requests =
        w.requests ++ List.replicate m (ratingsRequest nts courseId) := by
  rw [fetchRatings_miss nts w courseId hc hmiss]
  obtain ⟨m, hpos, hm, hreq⟩ := fetchWithRetry_requests
    { w with data := mapDelete w.data (cacheKey nts courseId) } (ratingsRequest nts courseId) 2
  refine ⟨m, hpos, hm, ?_⟩
  generalize fetchWithRetry { w with data := mapDelete w.data (cacheKey nts courseId) }
    (ratingsRequest nts courseId) 2 = fr at hreq
  obtain ⟨res, w2⟩ := fr
  cases res with
  | error e => exact hreq
  | ok response =>
    simp only
    cases response.json with
    | error e => exact hreq
    | ok data =>
      simp only
      cases normalizeRatings nts data with
      | error e => exact hreq
      | ok ratings => exact hreq

theorem normalizeRatings_unreadable (nts : ℚ → String) (data : JsVal) (e : JsError)
    (h : data.getProp "average" = .error e) : normalizeRatings nts data = .error e := by
  simp [normalizeRatings, h]

/-- When the `try` block of `fetchRatings` throws, the zero summary is returned and the
world is the one the retrying fetch left. -/
theorem fetchRatings_thrown (nts : ℚ → String) (w : World) (courseId : JsVal)
    (hc : courseId.truthy = true)
    (hmiss : (cacheGet w (cacheKey nts courseId)).1 = none)
    (hthrown :
      (∃ e, (fetchWithRetry (cacheGet w (cacheKey nts courseId)).2
        (ratingsRequest nts courseId) 2).1 = .error e) ∨
      (∃ response e, (fetchWithRetry (cacheGet w (cacheKey nts courseId)).2
        (ratingsRequest nts courseId) 2).1 = .ok response ∧ response.json = .error e) ∨
      (∃ response data e, (fetchWithRetry (cacheGet w (cacheKey nts courseId)).2
        (ratingsRequest nts courseId) 2).1 = .ok response ∧ response.json = .ok data ∧
        data.getProp "average" = .error e)) :
    fetchRatings nts w courseId =
      (.ok zeroSummary, (fetchWithRetry (cacheGet w (cacheKey nts courseId)).2
        (ratingsRequest nts courseId) 2).2) := by
  rw [fetchRatings_miss nts w courseId hc hmiss]
  rw [cacheGet_none w _ hmiss] at hthrown ⊢
  generalize fetchWithRetry { w with data := mapDelete w.data (cacheKey nts courseId) }
    (ratingsRequest nts courseId) 2 = fr at hthrown
  obtain ⟨res, w2⟩ := fr
  rcases hthrown with ⟨e, h⟩ | ⟨response, e, h, hj⟩ | ⟨response, data, e, h, hj, hp⟩
  · simp only at h
    subst h
    rfl
  · simp only at h
    subst h
    simp [hj]
  · simp only at h
    subst h
    simp [hj, normalizeRatings_unreadable nts data e hp]

theorem discoverIP_world (w : World) : (discoverIP w).2 = (fetchWithRetry w ipRequest 1).2 := by
  unfold discoverIP
  generalize fetchWithRetry w ipRequest 1 = fr
  obtain ⟨res, w1⟩ := fr
  cases res with
  | error e => rfl
  | ok ipResponse =>
    simp only
    split
    · cases ipResponse.json with
      | error e => rfl
      | ok ipData =>
        simp only
        cases ipData.getProp "ip" <;> rfl
    · rfl

theorem discoverIP_data (w : World) : (discoverIP w).2.data = w.data := by
  rw [discoverIP_world, fetchWithRetry_data]

theorem discoverIP_requests (w : World) :
    ∃ m, 0 < m ∧ m ≤ 2 ∧ (discoverIP w).2.requests = w.requests ++ List.replicate m ipRequest := by
  rw [discoverIP_world]
  exact fetchWithRetry_requests w ipRequest 1

/-- What `submitRating` does once validation has passed. -/
theorem submitRating_valid (nts : ℚ → String) (w : World) (courseId ratingValue : JsVal)
    (hv : isInvalid nts courseId ratingValue = false) :
    submitRating nts w courseId ratingValue =
      match fetchWithRetry (discoverIP w).2
          (submitRequest nts (discoverIP w).1 courseId ratingValue) 2 with
      | (.error e, w2) => (.ok (submitFailed e), w2)
      | (.ok response, w2) =>
        match response.json with
        | .error e => (.ok (submitFailed e), w2)
        | .ok result =>
          match result.getProp "status" with
          | .error e => (.ok (submitFailed e), w2)
          | .ok status =>
            if isSuccess status then
              (.ok result, { w2 with data := mapDelete w2.data (cacheKey nts courseId) })
            else (.ok result, w2) := by
  unfold submitRating
  simp [hv]

/-- The world after a valid `submitRating` has at least the request of the IP lookup
and the request of the rating in its log. -/
theorem submitRating_valid_requests (nts : ℚ → String) (w : World) (courseId ratingValue : JsVal)
    (hv : isInvalid nts courseId ratingValue = false) :
    w.requests.length + 2 ≤ (submitRating nts w courseId ratingValue).2.requests.length := by
  rw [submitRating_valid nts w courseId ratingValue hv]
  obtain ⟨m1, h1, _, hr1⟩ := discoverIP_requests w
  obtain ⟨m2, h2, _, hr2⟩ := fetchWithRetry_requests (discoverIP w).2
    (submitRequest nts (discoverIP w).1 courseId ratingValue) 2
  have hlen : w.requests.length + 2 ≤ (fetchWithRetry (discoverIP w).2
      (submitRequest nts (discoverIP w).1 courseId ratingValue) 2).2.requests.length := by
    rw [hr2, hr1]
    simp
    omega
  generalize fetchWithRetry (discoverIP w).2
    (submitRequest nts (discoverIP w).1 courseId ratingValue) 2 = fr at hlen
  obtain ⟨res, w2⟩ := fr
  cases res with
  | error e => exact hlen
  | ok response =>
    simp only
    cases response.json with
    | error e => exact hlen
    | ok result =>
      simp only
      cases result.getProp "status" with
      | error e => exact hlen
      | ok status =>
        simp only
        split <;> exact hlen

theorem isInvalid_num (nts : ℚ → String) (courseId : JsVal) (r : JNum) :
    isInvalid nts courseId (.num r) = true ↔ courseId.truthy = false ∨ ¬ InRatingRange r := by
  unfold isInvalid InRatingRange
  cases hc : courseId.truthy with
  | false => simp
  | true =>
    cases r with
    | nan => simp [JsVal.truthy, JNum.truthy]
    | negInf => simp [JsVal.truthy, JNum.truthy, JsVal.toNumber, JNum.lt]
    | posInf => simp [JsVal.truthy, JNum.truthy, JsVal.toNumber, JNum.lt, JNum.gt]
    | fin q =>
      simp only [JsVal.truthy, JNum.truthy, JsVal.toNumber, JNum.lt, JNum.gt, Bool.not_true,
        Bool.false_or, Bool.or_eq_true, Bool.not_eq_true', decide_eq_false_iff_not,
        decide_eq_true_eq, JNum.fin.injEq, exists_eq_left', false_or, ne_eq, not_not,
        Bool.true_eq_false]
      constructor
      · rintro ((h | h) | h) ⟨h1, h2⟩
        · subst h; norm_num at h1
        · linarith
        · linarith
      · intro h
        by_contra hcon
        push_neg at hcon
        exact h ⟨hcon.1.2, hcon.2⟩

theorem submitRating_invalid (nts : ℚ → String) (w : World) (courseId ratingValue : JsVal)
    (hv : isInvalid nts courseId ratingValue = true) :
    submitRating nts w courseId ratingValue = (.ok invalidResult, w) := by
  unfold submitRating
  simp [hv]

/-! ## Lemmas on rendering -/


theorem nearestHalf_fin (q : ℚ) :
    nearestHalf (.fin q) = .fin ((⌊2 * q + 1 / 2⌋ : ℤ) / 2) := by
  simp [nearestHalf, JNum.mul, JNum.mathRound, JNum.div, mul_comm]

theorem starClass_fin (q : ℚ) (i : ℕ) :
    starClass (.fin q) i =
      if (i : ℚ) ≤ q then "bi-star-fill text-warning"
      else if (i : ℚ) - 1 / 2 = q then "bi-star-half text-warning"
      else "bi-star text-muted" := by
  simp [starClass, JNum.le, JNum.strictEq, JNum.sub, JNum.add, JNum.neg, sub_eq_add_neg]

/-- For a numeric rating the class computed by `renderStars` is the class of the rating
rounded to the nearest half-unit: the `|| 0` only replaces `NaN`, for which every star
is empty either way. -/
theorem starClass_roundedRating (nts : ℚ → String) (r : JNum) (i : ℕ) (hi : 1 ≤ i) :
    starClass (roundedRating nts (.num r)) i = starClass (nearestHalf r) i := by
  cases r with
  | nan =>
    have h0 : roundedRating nts (.num .nan) = .fin 0 := by
      simp [roundedRating, parseFloat, JNum.orZero, JNum.truthy, JNum.mul, JNum.mathRound,
        JNum.div]
      norm_num
    have h1 : nearestHalf .nan = .nan := rfl
    rw [h0, h1, starClass_fin]
    have hq : ¬ ((i : ℚ) ≤ 0) := by
      have : (1 : ℚ) ≤ i := by exact_mod_cast hi
      linarith
    have hq2 : ¬ ((i : ℚ) - 1 / 2 = 0) := by
      have : (1 : ℚ) ≤ i := by exact_mod_cast hi
      intro h; linarith
    rw [if_neg hq, if_neg hq2]
    rfl
  | negInf => rfl
  | posInf => rfl
  | fin q =>
    simp [roundedRating, nearestHalf, parseFloat, orZero_fin]


theorem renderStars_unfold (nts : ℚ → String) (rating : JsVal) (b : Bool) :
    renderStars nts rating b =
      starMarkup (starClass (roundedRating nts rating) 1) b 1 ++
      starMarkup (starClass (roundedRating nts rating) 2) b 2 ++
      starMarkup (starClass (roundedRating nts rating) 3) b 3 ++
      starMarkup (starClass (roundedRating nts rating) 4) b 4 ++
      starMarkup (starClass (roundedRating nts rating) 5) b 5 := by
  simp [renderStars, List.range', List.foldl]

theorem sub_half (i : ℕ) : JNum.sub (.fin i) (.fin (1 / 2)) = .fin ((i : ℚ) - 1 / 2) := by
  show JNum.fin ((i : ℚ) + -(1 / 2)) = _
  rw [sub_eq_add_neg]

theorem le_excludes_half (h : JNum) (i : ℕ) (hle : JNum.le (.fin i) h = true) :
    JNum.strictEq (JNum.sub (.fin i) (.fin (1 / 2))) h = false := by
  rw [sub_half]
  cases h with
  | nan => rfl
  | negInf => rfl
  | posInf => rfl
  | fin q =>
    have h1 : (i : ℚ) ≤ q := by simpa [JNum.le] using hle
    have h2 : ¬ ((i : ℚ) - 1 / 2 = q) := by intro h; linarith
    show decide (JNum.fin ((i : ℚ) - 1 / 2) = JNum.fin q) = false
    rw [decide_eq_false_iff_not]
    intro h3
    exact h2 (JNum.fin.inj h3)

theorem starClass_cases (h : JNum) (i : ℕ) :
    (starClass h i = "bi-star-fill text-warning" ↔ JNum.le (.fin i) h = true) ∧
    (starClass h i = "bi-star-half text-warning" ↔
      JNum.strictEq (JNum.sub (.fin i) (.fin (1 / 2))) h = true) ∧
    (starClass h i = "bi-star text-muted" ↔
      JNum.le (.fin i) h = false ∧
        JNum.strictEq (JNum.sub (.fin i) (.fin (1 / 2))) h = false) := by
  unfold starClass
  cases hle : JNum.le (.fin i) h with
  | true =>
    have heq := le_excludes_half h i hle
    rw [heq]
    refine ⟨?_, ?_, ?_⟩
    · simp
    · simp
    · simp
  | false =>
    cases heq : JNum.strictEq (JNum.sub (.fin i) (.fin (1 / 2))) h with
    | true =>
      refine ⟨?_, ?_, ?_⟩
      · simp
      · simp
      · simp
    | false =>
      refine ⟨?_, ?_, ?_⟩
      · simp
      · simp
      · simp

theorem le_fin_mono (h : JNum) (i j : ℕ) (hij : i < j) (hle : JNum.le (.fin j) h = true) :
    JNum.le (.fin i) h = true := by
  cases h with
  | nan => cases hle
  | negInf => cases hle
  | posInf => rfl
  | fin q =>
    have h1 : (j : ℚ) ≤ q := by simpa [JNum.le] using hle
    have h2 : (i : ℚ) < j := by exact_mod_cast hij
    have h3 : (i : ℚ) ≤ q := by linarith
    simpa [JNum.le] using h3

theorem half_fills_left (h : JNum) (i j : ℕ) (hij : i < j)
    (heq : JNum.strictEq (JNum.sub (.fin j) (.fin (1 / 2))) h = true) :
    JNum.le (.fin i) h = true := by
  rw [sub_half] at heq
  cases h with
  | nan => cases heq
  | negInf => simp [JNum.strictEq] at heq
  | posInf => rfl
  | fin q =>
    have h0 : JNum.fin ((j : ℚ) - 1 / 2) = JNum.fin q := of_decide_eq_true heq
    have h1 : (j : ℚ) - 1 / 2 = q := JNum.fin.inj h0
    have h2 : (i : ℚ) + 1 ≤ j := by exact_mod_cast hij
    have h3 : (i : ℚ) ≤ q := by linarith
    simpa [JNum.le] using h3

theorem half_empties_right (h : JNum) (i j : ℕ) (hij : i < j)
    (heq : JNum.strictEq (JNum.sub (.fin i) (.fin (1 / 2))) h = true) :
    JNum.le (.fin j) h = false ∧
      JNum.strictEq (JNum.sub (.fin j) (.fin (1 / 2))) h = false := by
  rw [sub_half] at heq ⊢
  cases h with
  | nan => cases heq
  | negInf => simp [JNum.strictEq] at heq
  | posInf => simp [JNum.strictEq] at heq
  | fin q =>
    have h0 : JNum.fin ((i : ℚ) - 1 / 2) = JNum.fin q := of_decide_eq_true heq
    have h1 : (i : ℚ) - 1 / 2 = q := JNum.fin.inj h0
    have h2 : (i : ℚ) + 1 ≤ j := by exact_mod_cast hij
    have h3 : ¬ ((j : ℚ) ≤ q) := by intro h; linarith
    have h4 : ¬ ((j : ℚ) - 1 / 2 = q) := by intro h; linarith
    constructor
    · simpa [JNum.le] using h3
    · show decide (JNum.fin ((j : ℚ) - 1 / 2) = JNum.fin q) = false
      rw [decide_eq_false_iff_not]
      intro h5
      exact h4 (JNum.fin.inj h5)

theorem empty_empties_right (h : JNum) (i j : ℕ) (hij : i < j)
    (hle : JNum.le (.fin i) h = false)
    (hne : JNum.strictEq (JNum.sub (.fin i) (.fin (1 / 2))) h = false) :
    JNum.le (.fin j) h = false ∧
      JNum.strictEq (JNum.sub (.fin j) (.fin (1 / 2))) h = false := by
  rw [sub_half] at hne ⊢
  cases h with
  | nan => exact ⟨rfl, rfl⟩
  | negInf => exact ⟨rfl, rfl⟩
  | posInf => cases hle
  | fin q =>
    have h1 : ¬ ((i : ℚ) ≤ q) := by simpa [JNum.le] using hle
    have h2 : (i : ℚ) + 1 ≤ j := by exact_mod_cast hij
    have h3 : ¬ ((j : ℚ) ≤ q) := by intro h; apply h1; linarith
    have h4 : ¬ ((j : ℚ) - 1 / 2 = q) := by intro h; apply h1; linarith
    constructor
    · simpa [JNum.le] using h3
    · show decide (JNum.fin ((j : ℚ) - 1 / 2) = JNum.fin q) = false
      rw [decide_eq_false_iff_not]
      intro h5
      exact h4 (JNum.fin.inj h5)

/-- The classes are ordered: to the left of a filled or half star every star is filled,
to the right of a half or empty star every star is empty. -/
theorem starClass_order (h : JNum) (i j : ℕ) (hij : i < j) :
    (starClass h j = "bi-star-fill text-warning" → starClass h i = "bi-star-fill text-warning") ∧
    (starClass h j = "bi-star-half text-warning" → starClass h i = "bi-star-fill text-warning") ∧
    (starClass h i = "bi-star-half text-warning" → starClass h j = "bi-star text-muted") ∧
    (starClass h i = "bi-star text-muted" → starClass h j = "bi-star text-muted") := by
  obtain ⟨fi, hi, ei⟩ := starClass_cases h i
  obtain ⟨fj, hj, ej⟩ := starClass_cases h j
  refine ⟨?_, ?_, ?_, ?_⟩
  · intro hc
    exact fi.mpr (le_fin_mono h i j hij (fj.mp hc))
  · intro hc
    exact fi.mpr (half_fills_left h i j hij (hj.mp hc))
  · intro hc
    exact ej.mpr (half_empties_right h i j hij (hi.mp hc))
  · intro hc
    exact ej.mpr (empty_empties_right h i j hij (ei.mp hc).1 (ei.mp hc).2)

/-! ## Lemmas on the widget -/


/-- While `isSubmitting` is set, the four listeners return at once. -/
theorem listeners_ignore_while_submitting (s : Widget) (hs : s.isSubmitting = true)
    (t : Target) (key : String) :
    onClick s t = s ∧ onMouseover s t = s ∧ onMouseout s = s ∧ onKeydown s t key = s := by
  refine ⟨?_, ?_, ?_, ?_⟩
  · unfold onClick
    cases s.container.element t <;> simp [hs]
  · unfold onMouseover
    cases s.container.element t <;> simp [hs]
  · simp [onMouseout, hs]
  · simp [onKeydown, hs]

theorem step_ignore_while_submitting (s : Widget) (hs : s.isSubmitting = true)
    (ev : WidgetEvent) (hev : ev.isUserEvent = true) : step s ev = s := by
  cases ev with
  | click t => exact (listeners_ignore_while_submitting s hs t "").1
  | mouseover t => exact (listeners_ignore_while_submitting s hs t "").2.1
  | mouseout => exact (listeners_ignore_while_submitting s hs none "").2.2.1
  | keydown t key => exact (listeners_ignore_while_submitting s hs t key).2.2.2
  | settled f => cases hev
  | external c => cases hev

/-- The flags after a click: untouched, or the widget was idle and is now submitting
with at most one more promise pending. -/
theorem onClick_flags (s : Widget) (t : Target) :
    ((onClick s t).isSubmitting = s.isSubmitting ∧ (onClick s t).pending = s.pending ∧
      (onClick s t).calls = s.calls) ∨
    (s.isSubmitting = false ∧ (onClick s t).isSubmitting = true ∧
      (onClick s t).pending ≤ s.pending + 1) := by
  unfold onClick
  cases s.container.element t with
  | none => exact Or.inl ⟨rfl, rfl, rfl⟩
  | some target =>
    simp only
    split
    · rename_i h
      have hs : s.isSubmitting = false := by
        cases hsub : s.isSubmitting with
        | false => rfl
        | true => simp [hsub] at h
      split
      · split
        · exact Or.inr ⟨hs, rfl, le_refl _⟩
        · exact Or.inr ⟨hs, rfl, Nat.le_succ _⟩
      · exact Or.inl ⟨rfl, rfl, rfl⟩
    · exact Or.inl ⟨rfl, rfl, rfl⟩


theorem onKeydown_flags (s : Widget) (t : Target) (key : String) :
    ((onKeydown s t key).isSubmitting = s.isSubmitting ∧
      (onKeydown s t key).pending = s.pending ∧ (onKeydown s t key).calls = s.calls) ∨
    ((onKeydown s t key).isSubmitting = (onClick s t).isSubmitting ∧
      (onKeydown s t key).pending = (onClick s t).pending ∧
      (onKeydown s t key).calls = (onClick s t).calls) := by
  unfold onKeydown
  split
  · exact Or.inl ⟨rfl, rfl, rfl⟩
  · cases s.container.element t with
    | none => exact Or.inl ⟨rfl, rfl, rfl⟩
    | some focused =>
      simp only
      split
      · have hk : (keySwitch s t key).2 = s ∨ (keySwitch s t key).2 = onClick s t := by
          unfold keySwitch
          split
          · exact Or.inl rfl
          · split
            · exact Or.inl rfl
            · split
              · simp only
                split
                · exact Or.inr rfl
                · exact Or.inl rfl
              · exact Or.inl rfl
        rcases hk with hk | hk
        · left
          split <;> simp [hk]
        · right
          split <;> simp [hk]
      · exact Or.inl ⟨rfl, rfl, rfl⟩

theorem oneInFlight_onClick (s : Widget) (t : Target) (h : OneInFlight s) :
    OneInFlight (onClick s t) := by
  rcases onClick_flags s t with ⟨h1, h2, _⟩ | ⟨h1, h2, h3⟩
  · exact ⟨by rw [h2]; exact h.1, by rw [h1, h2]; exact h.2⟩
  · have := h.2 h1
    exact ⟨by omega, by rw [h2]; intro hc; cases hc⟩

theorem oneInFlight_step (s : Widget) (ev : WidgetEvent) (h : OneInFlight s) :
    OneInFlight (step s ev) := by
  cases ev with
  | click t => exact oneInFlight_onClick s t h
  | mouseover t =>
    show OneInFlight (onMouseover s t)
    unfold onMouseover
    cases s.container.element t with
    | none => exact h
    | some target =>
      simp only
      split
      · split
        · exact h
        · exact h
      · exact h
  | mouseout =>
    show OneInFlight (onMouseout s)
    unfold onMouseout
    split
    · exact h
    · exact h
  | keydown t key =>
    show OneInFlight (onKeydown s t key)
    rcases onKeydown_flags s t key with ⟨h1, h2, _⟩ | ⟨h1, h2, _⟩
    · exact ⟨by rw [h2]; exact h.1, by rw [h1, h2]; exact h.2⟩
    · have hc := oneInFlight_onClick s t h
      exact ⟨by rw [h2]; exact hc.1, by rw [h1, h2]; exact hc.2⟩
  | settled f =>
    show OneInFlight (onSettled s)
    unfold onSettled
    split
    · exact h
    · have := h.1
      exact ⟨by show s.pending - 1 ≤ 1; omega, fun _ => by show s.pending - 1 = 0; omega⟩
  | external change => exact h

theorem oneInFlight_run (events : List WidgetEvent) :
    ∀ s : Widget, OneInFlight s → OneInFlight (run s events) := by
  induction events with
  | nil => intro s h; exact h
  | cons ev rest ih =>
    intro s h
    exact ih (step s ev) (oneInFlight_step s ev h)

theorem starClass_three (h : JNum) (i : ℕ) :
    starClass h i = "bi-star-fill text-warning" ∨ starClass h i = "bi-star-half text-warning" ∨
      starClass h i = "bi-star text-muted" := by
  unfold starClass
  split
  · exact Or.inl rfl
  · split
    · exact Or.inr (Or.inl rfl)
    · exact Or.inr (Or.inr rfl)

theorem renderStars_zero (nts : ℚ → String) (b : Bool) :
    renderStars nts (.num (.fin 0)) b =
      starMarkup "bi-star text-muted" b 1 ++ starMarkup "bi-star text-muted" b 2 ++
      starMarkup "bi-star text-muted" b 3 ++ starMarkup "bi-star text-muted" b 4 ++
      starMarkup "bi-star text-muted" b 5 := by
  have h : roundedRating nts (.num (.fin 0)) = .fin 0 := by
    simp only [roundedRating, parseFloat, orZero_fin]
    show nearestHalf (.fin 0) = _
    rw [nearestHalf_fin]
    norm_num
  rw [renderStars_unfold, h]
  simp only [starClass_fin]
  norm_num

set_option maxRecDepth 100000 in
/-- What the markup of one star carries, for each of the three classes and each
position from 1 to 5. -/
theorem starMarkup_contents (cls : String) (i : ℕ)
    (hcls : cls = "bi-star-fill text-warning" ∨ cls = "bi-star-half text-warning" ∨
      cls = "bi-star text-muted")
    (h1 : 1 ≤ i) (h5 : i ≤ 5) :
    (markupHas (starMarkup cls true i) ("data-value=\"" ++ toString i ++ "\"") = true ∧
      markupHas (starMarkup cls true i) ("class=\"bi " ++ cls ++ " rating-star\"") = true ∧
      markupHas (starMarkup cls true i) "style=\"cursor:pointer;" = true ∧
      markupHas (starMarkup cls true i) ("aria-label=\"Rate " ++ toString i ++ " stars\"") = true ∧
      markupHas (starMarkup cls true i) ("title=\"Rate " ++ toString i ++ " stars\"") = true) ∧
    (markupHas (starMarkup cls false i) ("data-value=\"" ++ toString i ++ "\"") = true ∧
      markupHas (starMarkup cls false i) "rating-star" = false ∧
      markupHas (starMarkup cls false i) "cursor" = false ∧
      markupHas (starMarkup cls false i) "Rate" = false ∧
      markupHas (starMarkup cls false i) "style=\"\"" = true ∧
      markupHas (starMarkup cls false i) "title=\"\"" = true ∧
      markupHas (starMarkup cls false i) "aria-label=\"\"" = true) := by
  have hi : i = 1 ∨ i = 2 ∨ i = 3 ∨ i = 4 ∨ i = 5 := by omega
  rcases hcls with h | h | h <;> subst h <;>
    rcases hi with h | h | h | h | h <;> subst h <;>
    exact ⟨⟨rfl, rfl, rfl, rfl, rfl⟩, ⟨rfl, rfl, rfl, rfl, rfl, rfl, rfl⟩⟩

theorem isInvalid_of_valid (nts : ℚ → String) (courseId : JsVal) (r : JNum)
    (hc : courseId.truthy = true) (hr : InRatingRange r) :
    isInvalid nts courseId (.num r) = false := by
  cases h : isInvalid nts courseId (.num r) with
  | false => rfl
  | true =>
    rcases (isInvalid_num nts courseId r).mp h with h1 | h1
    · rw [hc] at h1; cases h1
    · exact absurd hr h1

theorem three_inRatingRange : InRatingRange (.fin 3) := ⟨3, rfl, by norm_num, by norm_num⟩

/-- The IP lookup sends one request when its first attempt is answered ok and two when
the first attempt fails. -/
theorem lookup_requests (w : World) :
    (∀ response, attemptOutcome w ipRequest 0 = .ok response →
      (fetchWithRetry w ipRequest 1).2.requests = w.requests ++ [ipRequest]) ∧
    (∀ e, attemptOutcome w ipRequest 0 = .error e →
      (fetchWithRetry w ipRequest 1).2.requests = w.requests ++ [ipRequest, ipRequest]) := by
  constructor
  · intro response h
    exact (fetchWithRetry_first_ok w ipRequest 1 0 response (by omega)
      (fun j hj => absurd hj (Nat.not_lt_zero j)) h).2
  · intro e h
    have hfail : ∀ j, j < 1 → ∃ e1, attemptOutcome w ipRequest j = .error e1 := by
      intro j hj
      have : j = 0 := by omega
      subst this
      exact ⟨e, h⟩
    cases h1 : attemptOutcome w ipRequest 1 with
    | ok response => exact (fetchWithRetry_first_ok w ipRequest 1 1 response (le_refl 1) hfail h1).2
    | error e1 => exact (fetchWithRetry_all_fail w ipRequest 1 e1 hfail h1).2

/-- After validation, the result of `submitRating` is decided by how the rating request
settled, and its log is the log the rating request left. -/
theorem submitRating_outcome (nts : ℚ → String) (w : World) (courseId ratingValue : JsVal)
    (hv : isInvalid nts courseId ratingValue = false) :
    (submitRating nts w courseId ratingValue).1 =
      .ok (submitOutcome (fetchWithRetry (discoverIP w).2
        (submitRequest nts (discoverIP w).1 courseId ratingValue) 2).1) ∧
    (submitRating nts w courseId ratingValue).2.requests =
      (fetchWithRetry (discoverIP w).2
        (submitRequest nts (discoverIP w).1 courseId ratingValue) 2).2.requests := by
  rw [submitRating_valid nts w courseId ratingValue hv]
  generalize fetchWithRetry (discoverIP w).2
    (submitRequest nts (discoverIP w).1 courseId ratingValue) 2 = fr
  obtain ⟨res, w2⟩ := fr
  cases res with
  | error e => exact ⟨rfl, rfl⟩
  | ok response =>
    simp only [submitOutcome]
    cases response.json with
    | error e => exact ⟨rfl, rfl⟩
    | ok result =>
      simp only
      cases result.getProp "status" with
      | error e => exact ⟨rfl, rfl⟩
      | ok status =>
        simp only
        split <;> exact ⟨rfl, rfl⟩

/-- The rating request is issued after the lookup, between one and three times. -/
theorem submitRating_post_requests (nts : ℚ → String) (w : World) (courseId ratingValue : JsVal)
    (hv : isInvalid nts courseId ratingValue = false) :
    ∃ p, 0 < p ∧ p ≤ 3 ∧
      (submitRating nts w courseId ratingValue).2.requests =
        (discoverIP w).2.requests ++
          List.replicate p (submitRequest nts (discoverIP w).1 courseId ratingValue) := by
  rw [(submitRating_outcome nts w courseId ratingValue hv).2]
  exact fetchWithRetry_requests _ _ 2

/-- When the lookup throws, or its body does not parse, or the parsed body has no `ip`
field, `userIP` keeps the value `unknown`. -/
theorem discoverIP_unknown (w : World)
    (hfail :
      (∃ e, (fetchWithRetry w ipRequest 1).1 = .error e) ∨
      (∃ response e, (fetchWithRetry w ipRequest 1).1 = .ok response ∧
        response.json = .error e) ∨
      (∃ response fields, (fetchWithRetry w ipRequest 1).1 = .ok response ∧
        response.json = .ok (.obj fields) ∧ fields.lookup "ip" = none)) :
    (discoverIP w).1 = .str "unknown" := by
  unfold discoverIP
  generalize fetchWithRetry w ipRequest 1 = fr at hfail
  obtain ⟨res, w1⟩ := fr
  rcases hfail with ⟨e, h⟩ | ⟨response, e, h, hj⟩ | ⟨response, fields, h, hj, hip⟩
  · simp only at h
    subst h
    rfl
  · simp only at h
    subst h
    simp only
    split
    · simp [hj]
    · rfl
  · simp only at h
    subst h
    simp only
    split
    · simp [hj, JsVal.getProp, hip, JsVal.orElse, JsVal.truthy]
    · rfl

/-- A click on a star with `data-value` from 1 to 5, on an idle widget with a callback:
the selection is committed, the widget locks and the callback is invoked. -/
theorem onClick_activates (s : Widget) (t : Target) (target : Element) (v : ℕ)
    (hidle : s.isSubmitting = false) (hcb : s.onClickCallback = true)
    (hel : s.container.element t = some target)
    (hstar : classListContains target.className "rating-star" = true)
    (hv : dataValueOf target = .fin v) (h1 : 1 ≤ v) (h5 : v ≤ 5) :
    onClick s t =
      { s with currentSelection := .fin v, isSubmitting := true,
               container := updateStarsDisplay { s.container with pointerEvents := "none" } (.fin v),
               calls := s.calls ++ [.fin v], pending := s.pending + 1 } := by
  have hq1 : (1 : ℚ) ≤ v := by exact_mod_cast h1
  have hq5 : (v : ℚ) ≤ 5 := by exact_mod_cast h5
  have hq0 : (v : ℚ) ≠ 0 := by
    intro h; rw [h] at hq1; norm_num at hq1
  have hcond : ((JNum.fin (v : ℚ)).truthy && (JNum.fin (v : ℚ)).ge (.fin 1) &&
      (JNum.fin (v : ℚ)).le (.fin 5)) = true := by
    simp [JNum.truthy, JNum.ge, JNum.le, hq1, hq5, hq0]
  unfold onClick
  simp only [hel, hstar, hidle, hv, hcb, hcond, Bool.not_false, Bool.and_self, if_true]

/-- The `keydown` listener on Enter or the space key, for an idle widget and a focused
star: nothing happens unless the committed selection is greater than 0; otherwise the
star is clicked, and the selection held before the click is written back when it
differs from the one the click committed. -/
theorem onKeydown_enter (s : Widget) (t : Target) (target : Element) (key : String)
    (hidle : s.isSubmitting = false)
    (hel : s.container.element t = some target)
    (hstar : classListContains target.className "rating-star" = true)
    (hkey : key = "Enter" ∨ key = " ") :
    onKeydown s t key =
      if !JNum.strictEq s.currentSelection
          (if s.currentSelection.gt (.fin 0) then onClick s t else s).currentSelection then
        { (if s.currentSelection.gt (.fin 0) then onClick s t else s) with
          currentSelection := s.currentSelection,
          container := updateStarsDisplay
            (if s.currentSelection.gt (.fin 0) then onClick s t else s).container
            s.currentSelection }
      else (if s.currentSelection.gt (.fin 0) then onClick s t else s) := by
  have hk : keySwitch s t key =
      (s.currentSelection, if s.currentSelection.gt (.fin 0) then onClick s t else s) := by
    rcases hkey with h | h <;> subst h <;> simp [keySwitch]
  unfold onKeydown
  simp only [hidle, hel, hstar, hk, Bool.false_eq_true, if_false, if_true]

theorem normalizeRatings_no_fields (nts : ℚ → String) (data : JsVal)
    (havg : data.getProp "average" = .ok .undefined)
    (hcnt : data.getProp "count" = .ok .undefined) :
    normalizeRatings nts data = .ok zeroSummary := by
  have h1 : parseFloat nts .undefined = .nan := rfl
  have h2 : parseInt nts .undefined 0 = .nan := rfl
  simp only [normalizeRatings, havg, hcnt, h1, h2, (clampAverage .nan).1 rfl,
    (floorCount .nan).1 rfl]
  rfl

/-- A body that parses to a value without the fields `average` and `count` throws
nothing: the zero summary is returned and stored under the time of completion, and a
later call within `DURATION` returns it without a request. -/
theorem fetchRatings_no_fields (nts : ℚ → String) (w : World) (courseId : JsVal)
    (response : Response) (data : JsVal)
    (hc : courseId.truthy = true)
    (hmiss : (cacheGet w (cacheKey nts courseId)).1 = none)
    (hfetch : (fetchWithRetry (cacheGet w (cacheKey nts courseId)).2
      (ratingsRequest nts courseId) 2).1 = .ok response)
    (hjson : response.json = .ok data)
    (havg : data.getProp "average" = .ok .undefined)
    (hcnt : data.getProp "count" = .ok .undefined) :
    (fetchRatings nts w courseId).1 = .ok zeroSummary ∧
    mapGet (fetchRatings nts w courseId).2.data (cacheKey nts courseId) =
      some ⟨zeroSummary, (fetchRatings nts w courseId).2.now⟩ ∧
    (∀ t1 : ℤ,
      t1 - (fetchRatings nts w courseId).2.now < (fetchRatings nts w courseId).2.DURATION →
      fetchRatings nts { (fetchRatings nts w courseId).2 with now := t1 } courseId =
        (.ok zeroSummary, { (fetchRatings nts w courseId).2 with now := t1 })) := by
  obtain ⟨h1, h2⟩ :=
    fetchRatings_fresh nts w courseId response data .undefined .undefined hc hmiss hfetch hjson
      havg hcnt
  have hz : RatingSummary.mk
      (JNum.mathMax (.fin 0) (JNum.mathMin (.fin 5) (parseFloat nts .undefined).orZero))
      (JNum.mathMax (.fin 0) (parseInt nts .undefined 0).orZero) = zeroSummary := by
    have := normalizeRatings_no_fields nts data havg hcnt
    simp only [normalizeRatings, havg, hcnt] at this
    exact Except.ok.inj this
  rw [hz] at h1 h2
  have hm : mapGet (fetchRatings nts w courseId).2.data (cacheKey nts courseId) =
      some ⟨zeroSummary, (fetchRatings nts w courseId).2.now⟩ := by
    rw [h2]; exact mapGet_mapSet_self _ _ _
  refine ⟨h1, hm, ?_⟩
  intro t1 ht
  exact fetchRatings_hit nts _ courseId hc _
    (by rw [cacheGet_hit { (fetchRatings nts w courseId).2 with now := t1 } _ _ hm ht])

/-! ## Claims -/

/-- C7. For every `maxRetries = n` and every sequence of attempt outcomes: when the
first ok response comes at attempt `k + 1` with `k ≤ n`, `fetchWithRetry` returns that
response after exactly `k + 1` requests; when all of the `n + 1` attempts fail it makes
exactly `n + 1` requests and throws the error of the last attempt. -/
theorem fetchWithRetry_attempts (w : World) (req : Request) (n : ℕ) :
    (∀ (k : ℕ) (response : Response), k ≤ n →
      (∀ j, j < k → ∃ e, attemptOutcome w req j = .error e) →
      attemptOutcome w req k = .ok response →
      (fetchWithRetry w req n).1 = .ok response ∧
      (fetchWithRetry w req n).2.requests = w.requests ++ List.replicate (k + 1) req) ∧
    (∀ e : JsError,
      (∀ j, j < n → ∃ e1, attemptOutcome w req j = .error e1) →
      attemptOutcome w req n = .error e →
      (fetchWithRetry w req n).1 = .error e ∧
      (fetchWithRetry w req n).2.requests = w.requests ++ List.replicate (n + 1) req) := by
  constructor
  · intro k response hk hfail hok
    exact loop_first_ok req n (n + 1) 0 none w k response (by omega) hfail hok
  · intro e hfail hlast
    exact loop_all_fail req n n 0 none w e hfail hlast

/-- C7 at `maxRetries = 2`: fail, fail, succeed returns the third response after three
requests; fail, fail, fail throws the third error after three requests. -/
theorem fetchWithRetry_attempts_witness :
    ((fetchWithRetry (failFailSucceed .null) ipRequest 2).1 = .ok ⟨200, "OK", .ok .null⟩ ∧
      (fetchWithRetry (failFailSucceed .null) ipRequest 2).2.requests =
        [ipRequest, ipRequest, ipRequest]) ∧
    ((fetchWithRetry failFailFail ipRequest 2).1 = .error ⟨"HTTP 503: Service Unavailable"⟩ ∧
      (fetchWithRetry failFailFail ipRequest 2).2.requests =
        [ipRequest, ipRequest, ipRequest]) :=
  ⟨(fetchWithRetry_attempts (failFailSucceed .null) ipRequest 2).1 2 ⟨200, "OK", .ok .null⟩
      (le_refl 2)
      (fun j hj => ⟨⟨"Failed to fetch"⟩, by
        have : j = 0 ∨ j = 1 := by omega
        rcases this with h | h <;> subst h <;> rfl⟩)
      rfl,
   (fetchWithRetry_attempts failFailFail ipRequest 2).2 ⟨"HTTP 503: Service Unavailable"⟩
      (fun j hj => ⟨⟨"Failed to fetch"⟩, by
        have : j = 0 ∨ j = 1 := by omega
        rcases this with h | h <;> subst h <;> rfl⟩)
      rfl⟩

set_option maxRecDepth 100000 in
/-- Counterexample to C1: when the backend delivers a count that is the digit 1
followed by 309 zeros, `parseInt` yields `Infinity` and `fetchRatings` returns
`Infinity` as the count, which is no integer. -/
theorem count_overflows_to_infinity :
    ∃ r, (fetchRatings integerToString (failFailSucceed hugeCountBody) (.str "42")).1 = .ok r ∧
      r.count = .posInf ∧ ¬ ∃ c : ℕ, r.count = .fin c := by
  obtain ⟨hres, _⟩ := fetchRatings_fresh integerToString (failFailSucceed hugeCountBody)
    (.str "42") ⟨200, "OK", .ok hugeCountBody⟩ hugeCountBody (.str "4.5")
    (.str (String.mk ('1' :: List.replicate 309 '0'))) rfl rfl rfl rfl rfl rfl
  have hp : parseInt integerToString (.str (String.mk ('1' :: List.replicate 309 '0'))) 0 =
      .posInf := by
    rfl
  have hc := (floorCount (parseInt integerToString
    (.str (String.mk ('1' :: List.replicate 309 '0'))) 0)).2.2.1 hp
  refine ⟨_, hres, hc, ?_⟩
  rintro ⟨c, h⟩
  have h2 : JNum.posInf = JNum.fin (c : ℚ) := hc.symm.trans h
  cases h2

/-- C1 as amended. Whatever the backend returns, the summary that `fetchRatings` returns
has a finite average between 0 and 5 and a count that is a natural number or
`Infinity`, provided the cache holds only such summaries, which `fetchRatings`
maintains. When the parsed body yields the fields `average` and `count`: an average
that does not parse as a float (such as a missing field, `null`, a boolean or an
object) becomes 0, one above 5 becomes 5, a negative one becomes 0, one within the
range is kept; a count that does not parse as an integer becomes 0, a negative one
becomes 0, any other is kept, `Infinity` included, since the count has no upper cap. -/
theorem fetchRatings_in_range (nts : ℚ → String) (w : World) (courseId : JsVal)
    (hcache : CacheInRange w) :
    (∃ r, (fetchRatings nts w courseId).1 = .ok r ∧ r.InRange) ∧
    CacheInRange (fetchRatings nts w courseId).2 ∧
    (∀ (response : Response) (data average count : JsVal),
      courseId.truthy = true →
      (cacheGet w (cacheKey nts courseId)).1 = none →
      (fetchWithRetry (cacheGet w (cacheKey nts courseId)).2
        (ratingsRequest nts courseId) 2).1 = .ok response →
      response.json = .ok data →
      data.getProp "average" = .ok average →
      data.getProp "count" = .ok count →
      ∃ r, (fetchRatings nts w courseId).1 = .ok r ∧
        (parseFloat nts average = .nan → r.average = .fin 0) ∧
        (parseFloat nts average = .negInf → r.average = .fin 0) ∧
        (parseFloat nts average = .posInf → r.average = .fin 5) ∧
        (∀ a, parseFloat nts average = .fin a → 5 < a → r.average = .fin 5) ∧
        (∀ a, parseFloat nts average = .fin a → a < 0 → r.average = .fin 0) ∧
        (∀ a, parseFloat nts average = .fin a → 0 ≤ a → a ≤ 5 → r.average = .fin a) ∧
        (parseInt nts count 0 = .nan → r.count = .fin 0) ∧
        (parseInt nts count 0 = .negInf → r.count = .fin 0) ∧
        (parseInt nts count 0 = .posInf → r.count = .posInf) ∧
        (∀ c, parseInt nts count 0 = .fin c → c < 0 → r.count = .fin 0) ∧
        (∀ c, parseInt nts count 0 = .fin c → 0 ≤ c → r.count = .fin c)) ∧
    (∀ fields : List (String × JsVal), fields.lookup "average" = none →
      (JsVal.obj fields).getProp "average" = .ok .undefined) ∧
    (parseFloat nts .undefined = .nan ∧ parseFloat nts .null = .nan ∧
      (∀ b, parseFloat nts (.bool b) = .nan) ∧ (∀ fields, parseFloat nts (.obj fields) = .nan) ∧
      parseFloat nts (.str "") = .nan ∧ parseFloat nts (.str "n/a") = .nan) ∧
    (parseInt nts .undefined 0 = .nan ∧ parseInt nts .null 0 = .nan ∧
      (∀ b, parseInt nts (.bool b) 0 = .nan) ∧ (∀ fields, parseInt nts (.obj fields) 0 = .nan) ∧
      parseInt nts (.str "") 0 = .nan ∧ parseInt nts (.str "n/a") 0 = .nan) := by
  refine ⟨?_, ?_, ?_, ?_, ?_, ?_⟩
  · obtain ⟨r, h1, h2, _⟩ := fetchRatings_ok_inRange nts w courseId hcache
    exact ⟨r, h1, h2⟩
  · obtain ⟨r, _, _, h3⟩ := fetchRatings_ok_inRange nts w courseId hcache
    exact h3
  · intro response data average count hc hmiss hfetch hjson havg hcnt
    obtain ⟨hres, _⟩ :=
      fetchRatings_fresh nts w courseId response data average count hc hmiss hfetch hjson havg hcnt
    obtain ⟨a1, a2, a3, a4, a5, a6⟩ := clampAverage (parseFloat nts average)
    obtain ⟨c1, c2, c3, c4, c5⟩ := floorCount (parseInt nts count 0)
    exact ⟨_, hres, a1, a2, a3, a4, a5, a6, c1, c2, c3, c4, c5⟩
  · intro fields h
    simp [JsVal.getProp, h]
  · refine ⟨rfl, rfl, ?_, fun _ => rfl, rfl, rfl⟩
    intro b; cases b <;> rfl
  · refine ⟨rfl, rfl, ?_, fun _ => rfl, rfl, rfl⟩
    intro b; cases b <;> rfl

/-- C1 as amended, on a module just loaded, with a network that fails twice and then
delivers the body `{"average": "7.5", "count": "-3"}`: the summary returned is
`{5, 0}`. -/
theorem fetchRatings_in_range_witness :
    CacheInRange (failFailSucceed outOfRangeBody) ∧
    ∃ r, (fetchRatings integerToString (failFailSucceed outOfRangeBody) (.str "42")).1 = .ok r ∧
      r.InRange ∧ r.average = .fin 5 ∧ r.count = .fin 0 := by
  have h := fetchRatings_in_range integerToString (failFailSucceed outOfRangeBody) (.str "42")
    (fun _ _ h => nomatch h)
  refine ⟨(fun _ _ h => nomatch h), ?_⟩
  obtain ⟨r, hr, hrange⟩ := h.1
  obtain ⟨r2, hr2, _, _, _, a4, _, _, _, _, _, c4, _⟩ :=
    h.2.2.1 ⟨200, "OK", .ok outOfRangeBody⟩ outOfRangeBody (.str "7.5") (.str "-3")
      rfl rfl rfl rfl rfl rfl
  have hrr : r2 = r := by
    rw [hr] at hr2
    cases hr2
    rfl
  subst hrr
  exact ⟨r2, hr, hrange, a4 _ (parseFloat_sample _) (by norm_num),
    c4 _ (parseInt_sample _) (by norm_num)⟩

/-- C2. Suppose a first `fetchRatings` for a truthy course finds no live entry and gets
its first ok response at attempt `k + 1`, with a body that yields both fields. Then it
issues `k + 1` requests (one when the first attempt succeeds) and stores the summary it
returns under the time `t0` at which it completes. A second call for the same course
at any time `t1` with `t1 - t0 < DURATION` returns the stored summary and leaves the
world, request log included, as it was: no request is issued. A second call with
`t1 - t0 ≥ DURATION` issues at least one further request. `DURATION` is 300000 in a
module just loaded. -/
theorem fetchRatings_twice (nts : ℚ → String) (w : World) (courseId : JsVal) (k : ℕ)
    (response : Response) (data average count : JsVal)
    (hc : courseId.truthy = true)
    (hmiss : (cacheGet w (cacheKey nts courseId)).1 = none)
    (hk : k ≤ 2)
    (hfail : ∀ j, j < k → ∃ e, attemptOutcome w (ratingsRequest nts courseId) j = .error e)
    (hok : attemptOutcome w (ratingsRequest nts courseId) k = .ok response)
    (hjson : response.json = .ok data)
    (havg : data.getProp "average" = .ok average)
    (hcnt : data.getProp "count" = .ok count) :
    ∃ r, (fetchRatings nts w courseId).1 = .ok r ∧
      (fetchRatings nts w courseId).2.requests =
        w.requests ++ List.replicate (k + 1) (ratingsRequest nts courseId) ∧
      mapGet (fetchRatings nts w courseId).2.data (cacheKey nts courseId) =
        some ⟨r, (fetchRatings nts w courseId).2.now⟩ ∧
      (∀ t1 : ℤ,
        t1 - (fetchRatings nts w courseId).2.now < (fetchRatings nts w courseId).2.DURATION →
        fetchRatings nts { (fetchRatings nts w courseId).2 with now := t1 } courseId =
          (.ok r, { (fetchRatings nts w courseId).2 with now := t1 })) ∧
      (∀ t1 : ℤ,
        (fetchRatings nts w courseId).2.DURATION ≤ t1 - (fetchRatings nts w courseId).2.now →
        ∃ m, 0 < m ∧
          (fetchRatings nts { (fetchRatings nts w courseId).2 with now := t1 } courseId).2.requests =
            (fetchRatings nts w courseId).2.requests ++
              List.replicate m (ratingsRequest nts courseId)) ∧
      ∀ (now : ℤ) (net : ℕ → Request → FetchReply), (initialWorld now net).DURATION = 300000 := by
  have hw1 := cacheGet_none w _ hmiss
  obtain ⟨hres, hreq⟩ := fetchWithRetry_first_ok
    (cacheGet w (cacheKey nts courseId)).2 (ratingsRequest nts courseId) 2 k response hk
    (by rw [hw1]; exact hfail) (by rw [hw1]; exact hok)
  obtain ⟨r, h1, h2⟩ : ∃ r, (fetchRatings nts w courseId).1 = .ok r ∧
      (fetchRatings nts w courseId).2 =
        cacheSet (fetchWithRetry (cacheGet w (cacheKey nts courseId)).2
          (ratingsRequest nts courseId) 2).2 (cacheKey nts courseId) r :=
    ⟨_, fetchRatings_fresh nts w courseId response data average count hc hmiss hres hjson
      havg hcnt⟩
  have hm : mapGet (fetchRatings nts w courseId).2.data (cacheKey nts courseId) =
      some ⟨r, (fetchRatings nts w courseId).2.now⟩ := by
    rw [h2]; exact mapGet_mapSet_self _ _ _
  refine ⟨r, h1, ?_, hm, ?_, ?_, ?_⟩
  · rw [h2]
    show (fetchWithRetry _ _ 2).2.requests = _
    rw [hreq, hw1]
  · intro t1 ht
    exact fetchRatings_hit nts _ courseId hc _
      (by rw [cacheGet_hit { (fetchRatings nts w courseId).2 with now := t1 } _ _ hm ht])
  · intro t1 ht
    obtain ⟨m, hpos, _, hm2⟩ := fetchRatings_miss_requests nts
      { (fetchRatings nts w courseId).2 with now := t1 } courseId hc
      (by rw [cacheGet_expired { (fetchRatings nts w courseId).2 with now := t1 } _ _ hm ht])
    exact ⟨m, hpos, hm2⟩
  · intro now net
    norm_num [initialWorld]

/-- C2 on a module just loaded at time 0, whose network fails twice and then answers:
the first call completes at `t0` after three requests, a second call one minute later
returns the same summary and leaves the log at three requests. -/
theorem fetchRatings_twice_witness :
    ∃ r, (fetchRatings integerToString (failFailSucceed outOfRangeBody) (.str "42")).1 = .ok r ∧
      (fetchRatings integerToString (failFailSucceed outOfRangeBody) (.str "42")).2.requests =
        List.replicate 3 (ratingsRequest integerToString (.str "42")) ∧
      (fetchRatings integerToString
        { (fetchRatings integerToString (failFailSucceed outOfRangeBody) (.str "42")).2 with
          now := (fetchRatings integerToString (failFailSucceed outOfRangeBody)
            (.str "42")).2.now + 60000 } (.str "42")).1 = .ok r ∧
      (fetchRatings integerToString
        { (fetchRatings integerToString (failFailSucceed outOfRangeBody) (.str "42")).2 with
          now := (fetchRatings integerToString (failFailSucceed outOfRangeBody)
            (.str "42")).2.now + 60000 } (.str "42")).2.requests =
        List.replicate 3 (ratingsRequest integerToString (.str "42")) := by
  obtain ⟨r, h1, h2, _, h4, _, _⟩ :=
    fetchRatings_twice integerToString (failFailSucceed outOfRangeBody) (.str "42") 2
      ⟨200, "OK", .ok outOfRangeBody⟩ outOfRangeBody (.str "7.5") (.str "-3") rfl rfl (le_refl 2)
      (fun j hj => ⟨⟨"Failed to fetch"⟩, by
        have : j = 0 ∨ j = 1 := by omega
        rcases this with h | h <;> subst h <;> rfl⟩)
      rfl rfl rfl rfl
  have hd : (fetchRatings integerToString (failFailSucceed outOfRangeBody)
      (.str "42")).2.DURATION = 300000 := by
    rfl
  have h5 := h4 ((fetchRatings integerToString (failFailSucceed outOfRangeBody)
    (.str "42")).2.now + 60000) (by rw [hd]; omega)
  refine ⟨r, h1, h2, ?_, ?_⟩
  · rw [h5]
  · rw [h5]; exact h2

/-- Counterexample to C5: when the backend answers with the body `42`, which is no
object, `fetchRatings` returns `{average: 0, count: 0}` and stores it in the cache; a
second call one second later returns the stored summary and sends no request. The same
holds for the body `"oops"`. -/
theorem non_object_body_is_cached :
    ((fetchRatings integerToString (failFailSucceed (.num (.fin 42))) (.str "42")).1 =
        .ok zeroSummary ∧
      mapGet (fetchRatings integerToString (failFailSucceed (.num (.fin 42))) (.str "42")).2.data
          (cacheKey integerToString (.str "42")) =
        some ⟨zeroSummary,
          (fetchRatings integerToString (failFailSucceed (.num (.fin 42))) (.str "42")).2.now⟩ ∧
      (fetchRatings integerToString
        { (fetchRatings integerToString (failFailSucceed (.num (.fin 42))) (.str "42")).2 with
          now := (fetchRatings integerToString (failFailSucceed (.num (.fin 42)))
            (.str "42")).2.now + 1000 } (.str "42")).2.requests =
        (fetchRatings integerToString (failFailSucceed (.num (.fin 42))) (.str "42")).2.requests) ∧
    ((fetchRatings integerToString (failFailSucceed (.str "oops")) (.str "42")).1 =
        .ok zeroSummary ∧
      mapGet (fetchRatings integerToString (failFailSucceed (.str "oops")) (.str "42")).2.data
          (cacheKey integerToString (.str "42")) =
        some ⟨zeroSummary,
          (fetchRatings integerToString (failFailSucceed (.str "oops")) (.str "42")).2.now⟩) := by
  obtain ⟨h1, h2, h3⟩ := fetchRatings_no_fields integerToString
    (failFailSucceed (.num (.fin 42))) (.str "42") ⟨200, "OK", .ok (.num (.fin 42))⟩
    (.num (.fin 42)) rfl rfl rfl rfl rfl rfl
  obtain ⟨g1, g2, _⟩ := fetchRatings_no_fields integerToString
    (failFailSucceed (.str "oops")) (.str "42") ⟨200, "OK", .ok (.str "oops")⟩
    (.str "oops") rfl rfl rfl rfl rfl rfl
  have hd : (fetchRatings integerToString (failFailSucceed (.num (.fin 42)))
      (.str "42")).2.DURATION = 300000 := by
    rfl
  refine ⟨⟨h1, h2, ?_⟩, g1, g2⟩
  rw [h3 _ (by rw [hd]; omega)]

/-- C5 as amended. For a truthy course with no live cache entry: when the retrying
fetch throws, or reading and parsing the response body fails, or the body parses to
`null`, `fetchRatings` fulfils with exactly `{average: 0, count: 0}`, leaves no cache
entry under the key of the course and the other entries as they were, and a following
call at any time issues at least one request. When the body parses to a value that has
neither field, as every number, string, boolean and array does, nothing is thrown:
`fetchRatings` fulfils with `{average: 0, count: 0}`, stores it under the time of
completion, and a following call within `DURATION` returns it without a request. -/
theorem fetchRatings_failure (nts : ℚ → String) (w : World) (courseId : JsVal)
    (hc : courseId.truthy = true)
    (hmiss : (cacheGet w (cacheKey nts courseId)).1 = none) :
    (((∃ e, (fetchWithRetry (cacheGet w (cacheKey nts courseId)).2
        (ratingsRequest nts courseId) 2).1 = .error e) ∨
      (∃ response e, (fetchWithRetry (cacheGet w (cacheKey nts courseId)).2
        (ratingsRequest nts courseId) 2).1 = .ok response ∧ response.json = .error e) ∨
      (∃ response, (fetchWithRetry (cacheGet w (cacheKey nts courseId)).2
        (ratingsRequest nts courseId) 2).1 = .ok response ∧ response.json = .ok .null)) →
      (fetchRatings nts w courseId).1 = .ok zeroSummary ∧
      mapGet (fetchRatings nts w courseId).2.data (cacheKey nts courseId) = none ∧
      (∀ other, other ≠ cacheKey nts courseId →
        mapGet (fetchRatings nts w courseId).2.data other = mapGet w.data other) ∧
      (∀ t1 : ℤ, ∃ m, 0 < m ∧
        (fetchRatings nts { (fetchRatings nts w courseId).2 with now := t1 }
          courseId).2.requests =
          (fetchRatings nts w courseId).2.requests ++
            List.replicate m (ratingsRequest nts courseId))) ∧
    (∀ (response : Response) (data : JsVal),
      (fetchWithRetry (cacheGet w (cacheKey nts courseId)).2
        (ratingsRequest nts courseId) 2).1 = .ok response →
      response.json = .ok data →
      data.getProp "average" = .ok .undefined →
      data.getProp "count" = .ok .undefined →
      (fetchRatings nts w courseId).1 = .ok zeroSummary ∧
      mapGet (fetchRatings nts w courseId).2.data (cacheKey nts courseId) =
        some ⟨zeroSummary, (fetchRatings nts w courseId).2.now⟩ ∧
      (∀ t1 : ℤ,
        t1 - (fetchRatings nts w courseId).2.now < (fetchRatings nts w courseId).2.DURATION →
        fetchRatings nts { (fetchRatings nts w courseId).2 with now := t1 } courseId =
          (.ok zeroSummary, { (fetchRatings nts w courseId).2 with now := t1 }))) ∧
    (∀ name : String,
      (∃ e, JsVal.null.getProp name = .error e) ∧
      (∀ n, (JsVal.num n).getProp name = .ok .undefined) ∧
      (∀ t, (JsVal.str t).getProp name = .ok .undefined) ∧
      (∀ b, (JsVal.bool b).getProp name = .ok .undefined) ∧
      (∀ items, (JsVal.arr items).getProp name = .ok .undefined)) := by
  refine ⟨?_, ?_, ?_⟩
  · intro hthrown
    have hthrown2 :
        (∃ e, (fetchWithRetry (cacheGet w (cacheKey nts courseId)).2
          (ratingsRequest nts courseId) 2).1 = .error e) ∨
        (∃ response e, (fetchWithRetry (cacheGet w (cacheKey nts courseId)).2
          (ratingsRequest nts courseId) 2).1 = .ok response ∧ response.json = .error e) ∨
        (∃ response data e, (fetchWithRetry (cacheGet w (cacheKey nts courseId)).2
          (ratingsRequest nts courseId) 2).1 = .ok response ∧ response.json = .ok data ∧
          data.getProp "average" = .error e) := by
      rcases hthrown with h | h | ⟨response, h1, h2⟩
      · exact Or.inl h
      · exact Or.inr (Or.inl h)
      · exact Or.inr (Or.inr ⟨response, .null, _, h1, h2, rfl⟩)
    have h := fetchRatings_thrown nts w courseId hc hmiss hthrown2
    have hdata : (fetchRatings nts w courseId).2.data =
        mapDelete w.data (cacheKey nts courseId) := by
      rw [h]
      show (fetchWithRetry _ _ 2).2.data = _
      rw [fetchWithRetry_data, cacheGet_none w _ hmiss]
    have hnone : mapGet (fetchRatings nts w courseId).2.data (cacheKey nts courseId) =
        none := by
      rw [hdata]; exact mapGet_mapDelete_self _ _
    refine ⟨by rw [h], hnone, ?_, ?_⟩
    · intro other hne
      rw [hdata]
      exact mapGet_mapDelete_other _ _ _ hne
    · intro t1
      obtain ⟨m, hpos, _, hm⟩ := fetchRatings_miss_requests nts
        { (fetchRatings nts w courseId).2 with now := t1 } courseId hc
        (by rw [cacheGet_absent { (fetchRatings nts w courseId).2 with now := t1 } _ hnone])
      exact ⟨m, hpos, hm⟩
  · intro response data hfetch hjson havg hcnt
    exact fetchRatings_no_fields nts w courseId response data hc hmiss hfetch hjson havg hcnt
  · intro name
    exact ⟨⟨_, rfl⟩, fun _ => rfl, fun _ => rfl, fun _ => rfl, fun _ => rfl⟩

/-- C5 as amended, on a module just loaded whose network never answers ok: the zero
summary comes back and nothing is cached. -/
theorem fetchRatings_failure_witness :
    (fetchRatings integerToString failFailFail (.str "42")).1 = .ok zeroSummary ∧
    mapGet (fetchRatings integerToString failFailFail (.str "42")).2.data
      (cacheKey integerToString (.str "42")) = none :=
  have h := (fetchRatings_failure integerToString failFailFail (.str "42") rfl rfl).1
    (Or.inl ⟨⟨"HTTP 503: Service Unavailable"⟩, rfl⟩)
  ⟨h.1, h.2.1⟩

/-- C3. For a truthy course and a rating within 1 to 5, when the rating request is
answered ok and its body parses to a result whose `status` is `success`,
`submitRating` returns that result with no entry left under the key of the course,
whatever was cached before, and with every other entry as it was; the next
`fetchRatings` for the course, at any time, issues at least one request. -/
theorem submitRating_invalidates (nts : ℚ → String) (w : World) (courseId : JsVal) (r : JNum)
    (response : Response) (result : JsVal)
    (hc : courseId.truthy = true) (hr : InRatingRange r)
    (hpost : (fetchWithRetry (discoverIP w).2
      (submitRequest nts (discoverIP w).1 courseId (.num r)) 2).1 = .ok response)
    (hjson : response.json = .ok result)
    (hstatus : result.getProp "status" = .ok (.str "success")) :
    (submitRating nts w courseId (.num r)).1 = .ok result ∧
    mapGet (submitRating nts w courseId (.num r)).2.data (cacheKey nts courseId) = none ∧
    (∀ other, other ≠ cacheKey nts courseId →
      mapGet (submitRating nts w courseId (.num r)).2.data other = mapGet w.data other) ∧
    (∀ t1 : ℤ, ∃ m, 0 < m ∧
      (fetchRatings nts { (submitRating nts w courseId (.num r)).2 with now := t1 }
        courseId).2.requests =
        (submitRating nts w courseId (.num r)).2.requests ++
          List.replicate m (ratingsRequest nts courseId)) := by
  have hv : isInvalid nts courseId (.num r) = false := by
    cases h : isInvalid nts courseId (.num r) with
    | false => rfl
    | true =>
      rcases (isInvalid_num nts courseId r).mp h with h1 | h1
      · rw [hc] at h1; cases h1
      · exact absurd hr h1
  have hd := fetchWithRetry_data (discoverIP w).2
    (submitRequest nts (discoverIP w).1 courseId (.num r)) 2
  rw [discoverIP_data] at hd
  have hs := submitRating_valid nts w courseId (.num r) hv
  generalize fetchWithRetry (discoverIP w).2
    (submitRequest nts (discoverIP w).1 courseId (.num r)) 2 = fr at hpost hd hs
  obtain ⟨res, w2⟩ := fr
  simp only at hpost hd
  subst hpost
  simp only [hjson, hstatus, isSuccess, beq_self_eq_true, if_true] at hs
  have hdata : (submitRating nts w courseId (.num r)).2.data =
      mapDelete w.data (cacheKey nts courseId) := by
    rw [hs, ← hd]
  have hnone : mapGet (submitRating nts w courseId (.num r)).2.data (cacheKey nts courseId) =
      none := by
    rw [hdata]; exact mapGet_mapDelete_self _ _
  refine ⟨by rw [hs], hnone, ?_, ?_⟩
  · intro other hne
    rw [hdata]
    exact mapGet_mapDelete_other _ _ _ hne
  · intro t1
    obtain ⟨m, hpos, _, hm⟩ := fetchRatings_miss_requests nts
      { (submitRating nts w courseId (.num r)).2 with now := t1 } courseId hc
      (by rw [cacheGet_absent { (submitRating nts w courseId (.num r)).2 with now := t1 } _
        hnone])
    exact ⟨m, hpos, hm⟩

/-- C3 on a world with a live entry for course 42 whose backend answers
`{"status": "success"}`: the entry is live before the submission and gone after it. -/
theorem submitRating_invalidates_witness :
    (cacheGet (answering (.obj [("status", .str "success")]))
      (cacheKey integerToString (.str "42"))).1 = some ⟨.fin 4, .fin 10⟩ ∧
    mapGet (submitRating integerToString (answering (.obj [("status", .str "success")]))
      (.str "42") (.num (.fin 3))).2.data (cacheKey integerToString (.str "42")) = none :=
  ⟨rfl,
   (submitRating_invalidates integerToString (answering (.obj [("status", .str "success")]))
      (.str "42") (.fin 3) ⟨200, "OK", .ok (.obj [("status", .str "success")])⟩
      (.obj [("status", .str "success")]) rfl ⟨3, rfl, by norm_num, by norm_num⟩
      rfl rfl rfl).2.1⟩

/-- C4. For every course identifier and every numeric rating, `submitRating` returns the
local result `{status: "error", message: "Invalid course ID or rating value"}` with the
request log and the cache unchanged if and only if the identifier is falsy or the
rating is not within 1 to 5; so ratings 6 and 0, and the identifier `null`, are
rejected in this way, leaving the world as it was. -/
theorem submitRating_rejects_iff (nts : ℚ → String) (w : World) (courseId : JsVal) (r : JNum) :
    (((submitRating nts w courseId (.num r)).1 = .ok invalidResult ∧
        (submitRating nts w courseId (.num r)).2.requests = w.requests ∧
        (submitRating nts w courseId (.num r)).2.data = w.data) ↔
      (courseId.truthy = false ∨ ¬ InRatingRange r)) ∧
    submitRating nts w courseId (.num (.fin 6)) = (.ok invalidResult, w) ∧
    submitRating nts w courseId (.num (.fin 0)) = (.ok invalidResult, w) ∧
    submitRating nts w .null (.num (.fin 3)) = (.ok invalidResult, w) := by
  refine ⟨⟨?_, ?_⟩, ?_, ?_, ?_⟩
  · rintro ⟨_, hreq, _⟩
    by_contra hcon
    have hv : isInvalid nts courseId (.num r) = false := by
      cases h : isInvalid nts courseId (.num r) with
      | false => rfl
      | true => exact absurd ((isInvalid_num nts courseId r).mp h) hcon
    have hlen := submitRating_valid_requests nts w courseId (.num r) hv
    rw [hreq] at hlen
    omega
  · intro h
    rw [submitRating_invalid nts w courseId (.num r) ((isInvalid_num nts courseId r).mpr h)]
    exact ⟨rfl, rfl, rfl⟩
  · apply submitRating_invalid
    apply (isInvalid_num nts courseId _).mpr
    right
    rintro ⟨q, hq, _, h5⟩
    cases hq
    norm_num at h5
  · apply submitRating_invalid
    apply (isInvalid_num nts courseId _).mpr
    right
    rintro ⟨q, hq, h1, _⟩
    cases hq
    norm_num at h1
  · apply submitRating_invalid
    apply (isInvalid_num nts .null _).mpr
    left
    rfl

/-- Counterexample to C6: a backend that answers `{"status": "error"}`, without a
message, or `{"status": "pending"}`, gets its body returned as the result of
`submitRating`, and neither is a well-formed SubmissionResult. -/
theorem submitRating_passes_body_through :
    ((submitRating integerToString (answering (.obj [("status", .str "error")]))
        (.str "42") (.num (.fin 3))).1 = .ok (.obj [("status", .str "error")]) ∧
      ¬ WellFormedResult (.obj [("status", .str "error")])) ∧
    ((submitRating integerToString (answering (.obj [("status", .str "pending")]))
        (.str "42") (.num (.fin 3))).1 = .ok (.obj [("status", .str "pending")]) ∧
      ¬ WellFormedResult (.obj [("status", .str "pending")])) := by
  have hv : isInvalid integerToString (.str "42") (.num (.fin 3)) = false := by
    cases h : isInvalid integerToString (.str "42") (.num (.fin 3)) with
    | false => rfl
    | true =>
      rcases (isInvalid_num integerToString (.str "42") (.fin 3)).mp h with h1 | h1
      · cases h1
      · exact absurd ⟨3, rfl, by norm_num, by norm_num⟩ h1
  refine ⟨⟨?_, ?_⟩, ⟨?_, ?_⟩⟩
  · rw [submitRating_valid _ _ _ _ hv]
    rfl
  · rintro ⟨fields, hf, h | ⟨_, m, hm⟩⟩
    · cases hf
      simp [List.lookup] at h
    · cases hf
      simp [List.lookup] at hm
  · rw [submitRating_valid _ _ _ _ hv]
    rfl
  · rintro ⟨fields, hf, h | ⟨h, _⟩⟩
    · cases hf
      simp [List.lookup] at h
    · cases hf
      simp [List.lookup] at h

/-- C6 as amended. For every course identifier, every rating and every behaviour of
the network, `submitRating` fulfils, never rejects; its result is the local validation
error, or the local result `{status: "error", message: "Submit failed: ..."}`, both
well-formed, or else the parsed body of an ok response, returned unchanged. -/
theorem submitRating_result (nts : ℚ → String) (w : World) (courseId ratingValue : JsVal) :
    (∃ v, (submitRating nts w courseId ratingValue).1 = .ok v ∧
      (v = invalidResult ∨ (∃ e, v = submitFailed e) ∨
        ∃ response status,
          (fetchWithRetry (discoverIP w).2
            (submitRequest nts (discoverIP w).1 courseId ratingValue) 2).1 = .ok response ∧
          response.json = .ok v ∧ v.getProp "status" = .ok status)) ∧
    WellFormedResult invalidResult ∧ ∀ e, WellFormedResult (submitFailed e) := by
  refine ⟨?_, ⟨_, rfl, Or.inr ⟨rfl, _, rfl⟩⟩, fun e => ⟨_, rfl, Or.inr ⟨rfl, _, rfl⟩⟩⟩
  cases hv : isInvalid nts courseId ratingValue with
  | true =>
    rw [submitRating_invalid nts w courseId ratingValue hv]
    exact ⟨_, rfl, Or.inl rfl⟩
  | false =>
    rw [submitRating_valid nts w courseId ratingValue hv]
    generalize fetchWithRetry (discoverIP w).2
      (submitRequest nts (discoverIP w).1 courseId ratingValue) 2 = fr
    obtain ⟨res, w2⟩ := fr
    cases res with
    | error e => exact ⟨_, rfl, Or.inr (Or.inl ⟨e, rfl⟩)⟩
    | ok response =>
      simp only
      cases hj : response.json with
      | error e => exact ⟨_, rfl, Or.inr (Or.inl ⟨e, rfl⟩)⟩
      | ok result =>
        simp only
        cases hs : result.getProp "status" with
        | error e => exact ⟨_, rfl, Or.inr (Or.inl ⟨e, rfl⟩)⟩
        | ok status =>
          simp only
          split
          · exact ⟨_, rfl, Or.inr (Or.inr ⟨response, status, rfl, hj, hs⟩)⟩
          · exact ⟨_, rfl, Or.inr (Or.inr ⟨response, status, rfl, hj, hs⟩)⟩

set_option maxRecDepth 100000 in
/-- C8. For every numeric rating `r`, with `h = round(2r)/2`, `renderStars` emits the
five star elements of positions 1 to 5 in this order, and nothing else, each written as
the template of the source writes it with its class inside; the star of position `i`
has the filled class iff `i <= h`, the half class iff `i - 0.5 === h`, and the empty
class otherwise; so every star left of a filled or half star is filled and every star
right of a half or empty star is empty. For a finite `r`, `h` is
`floor(2r + 1/2) / 2`; for 3.5 the stars are filled, filled, filled, half, empty, and
the markup of `renderStars(3.5)` is the text given in full. -/
theorem renderStars_positions (nts : ℚ → String) (r : JNum) (isInteractive : Bool) :
    renderStars nts (.num r) isInteractive =
      starMarkup (starClass (nearestHalf r) 1) isInteractive 1 ++
      starMarkup (starClass (nearestHalf r) 2) isInteractive 2 ++
      starMarkup (starClass (nearestHalf r) 3) isInteractive 3 ++
      starMarkup (starClass (nearestHalf r) 4) isInteractive 4 ++
      starMarkup (starClass (nearestHalf r) 5) isInteractive 5 ∧
    (∀ (cls : String) (i : ℕ),
      starMarkup cls isInteractive i =
        "<i class=\"bi " ++ cls ++ " " ++ (if isInteractive then "rating-star" else "") ++
          "\" \n" ++
        "                       style=\"" ++
          (if isInteractive then "cursor:pointer; transition: color 0.2s ease;" else "") ++
          "\" \n" ++
        "                       data-value=\"" ++ toString i ++ "\" \n" ++
        "                       title=\"" ++
          (if isInteractive then "Rate " ++ toString i ++ " stars" else "") ++ "\"\n" ++
        "                       aria-label=\"" ++
          (if isInteractive then "Rate " ++ toString i ++ " stars" else "") ++ "\"></i>") ∧
    (∀ i : ℕ,
      (starClass (nearestHalf r) i = "bi-star-fill text-warning" ↔
        JNum.le (.fin i) (nearestHalf r) = true) ∧
      (starClass (nearestHalf r) i = "bi-star-half text-warning" ↔
        JNum.strictEq (JNum.sub (.fin i) (.fin (1 / 2))) (nearestHalf r) = true) ∧
      (starClass (nearestHalf r) i = "bi-star text-muted" ↔
        JNum.le (.fin i) (nearestHalf r) = false ∧
          JNum.strictEq (JNum.sub (.fin i) (.fin (1 / 2))) (nearestHalf r) = false)) ∧
    (∀ i j : ℕ, i < j →
      (starClass (nearestHalf r) j = "bi-star-fill text-warning" →
        starClass (nearestHalf r) i = "bi-star-fill text-warning") ∧
      (starClass (nearestHalf r) j = "bi-star-half text-warning" →
        starClass (nearestHalf r) i = "bi-star-fill text-warning") ∧
      (starClass (nearestHalf r) i = "bi-star-half text-warning" →
        starClass (nearestHalf r) j = "bi-star text-muted") ∧
      (starClass (nearestHalf r) i = "bi-star text-muted" →
        starClass (nearestHalf r) j = "bi-star text-muted")) ∧
    (∀ q : ℚ, nearestHalf (.fin q) = .fin ((⌊2 * q + 1 / 2⌋ : ℤ) / 2)) ∧
    (List.range' 1 5).map (starClass (roundedRating nts (.num (.fin (7 / 2))))) =
      ["bi-star-fill text-warning", "bi-star-fill text-warning", "bi-star-fill text-warning",
        "bi-star-half text-warning", "bi-star text-muted"] ∧
    renderStars nts (.num (.fin (7 / 2))) false =
      "<i class=\"bi bi-star-fill text-warning \" \n" ++
      "                       style=\"\" \n" ++
      "                       data-value=\"1\" \n" ++
      "                       title=\"\"\n" ++
      "                       aria-label=\"\"></i>" ++
      "<i class=\"bi bi-star-fill text-warning \" \n" ++
      "                       style=\"\" \n" ++
      "                       data-value=\"2\" \n" ++
      "                       title=\"\"\n" ++
      "                       aria-label=\"\"></i>" ++
      "<i class=\"bi bi-star-fill text-warning \" \n" ++
      "                       style=\"\" \n" ++
      "                       data-value=\"3\" \n" ++
      "                       title=\"\"\n" ++
      "                       aria-label=\"\"></i>" ++
      "<i class=\"bi bi-star-half text-warning \" \n" ++
      "                       style=\"\" \n" ++
      "                       data-value=\"4\" \n" ++
      "                       title=\"\"\n" ++
      "                       aria-label=\"\"></i>" ++
      "<i class=\"bi bi-star text-muted \" \n" ++
      "                       style=\"\" \n" ++
      "                       data-value=\"5\" \n" ++
      "                       title=\"\"\n" ++
      "                       aria-label=\"\"></i>" := by
  have h35 : roundedRating nts (.num (.fin (7 / 2))) = .fin (7 / 2) := by
    simp only [roundedRating, parseFloat, orZero_fin]
    show nearestHalf (.fin (7 / 2)) = _
    rw [nearestHalf_fin]
    norm_num
  have hcls : (List.range' 1 5).map (starClass (roundedRating nts (.num (.fin (7 / 2))))) =
      ["bi-star-fill text-warning", "bi-star-fill text-warning", "bi-star-fill text-warning",
        "bi-star-half text-warning", "bi-star text-muted"] := by
    rw [h35]
    simp only [List.range', List.map, starClass_fin]
    norm_num
  refine ⟨?_, ?_, fun i => starClass_cases _ i, fun i j hij => starClass_order _ i j hij,
    nearestHalf_fin, hcls, ?_⟩
  · rw [renderStars_unfold]
    rw [starClass_roundedRating nts r 1 (le_refl 1), starClass_roundedRating nts r 2 (by omega),
      starClass_roundedRating nts r 3 (by omega), starClass_roundedRating nts r 4 (by omega),
      starClass_roundedRating nts r 5 (by omega)]
  · intro cls i
    cases isInteractive <;> simp [starMarkup, String.append_assoc]
  · simp only [List.range', List.map, List.cons.injEq, and_true] at hcls
    obtain ⟨c1, c2, c3, c4, c5⟩ := hcls
    rw [renderStars_unfold, c1, c2, c3, c4, c5]
    rfl

/-- C9. While the widget is submitting, a click, mouseover, mouseout or keydown event
leaves it exactly as it was: selection, displayed stars and callback invocations. So
after any sequence of events on a widget set up by `initializeStarEvents`, at most one
invocation of the callback is unsettled, none is unless the widget is submitting, and
while one is unsettled no event invokes the callback. -/
theorem one_submission_in_flight (c : Container) (onClickCallback : Bool) (w0 : Widget)
    (h0 : initializeStarEvents (some c) onClickCallback = some w0)
    (events : List WidgetEvent) :
    (∀ (s : Widget) (ev : WidgetEvent), s.isSubmitting = true → ev.isUserEvent = true →
      step s ev = s) ∧
    (run w0 events).pending ≤ 1 ∧
    ((run w0 events).isSubmitting = false → (run w0 events).pending = 0) ∧
    (∀ ev : WidgetEvent, 0 < (run w0 events).pending → ev.isUserEvent = true →
      step (run w0 events) ev = run w0 events) := by
  have hinit : OneInFlight w0 := by
    simp only [initializeStarEvents, Option.some.injEq] at h0
    subst h0
    exact ⟨Nat.zero_le _, fun _ => rfl⟩
  have hrun := oneInFlight_run events w0 hinit
  refine ⟨fun s ev hs hev => step_ignore_while_submitting s hs ev hev, hrun.1, hrun.2, ?_⟩
  intro ev hpos hev
  have hsub : (run w0 events).isSubmitting = true := by
    cases hsub : (run w0 events).isSubmitting with
    | true => rfl
    | false =>
      have := hrun.2 hsub
      omega
  exact step_ignore_while_submitting _ hsub ev hev

/-- C9 on the five-star widget: a click on the third star starts a submission, a click
on the fourth star and Enter on the first one before it settles invoke nothing more. -/
theorem one_submission_in_flight_witness :
    (run starWidget [.click (some 2), .click (some 3), .keydown (some 0) "Enter"]).calls =
      [.fin 3] ∧
    (run starWidget [.click (some 2), .click (some 3), .keydown (some 0) "Enter"]).pending ≤ 1 ∧
    step (run starWidget [.click (some 2)]) (.click (some 3)) =
      run starWidget [.click (some 2)] :=
  ⟨rfl,
   (one_submission_in_flight fiveStars true starWidget rfl
      [.click (some 2), .click (some 3), .keydown (some 0) "Enter"]).2.1,
   (one_submission_in_flight fiveStars true starWidget rfl [.click (some 2)]).2.2.2
      (.click (some 3)) (by decide) rfl⟩

/-- Counterexample to C10: on the five-star widget a click on the third star sets
`pointer-events` to `none`; after the callback settles, fulfilled or rejected, the
flag `isSubmitting` is cleared but `pointer-events` is still `none`. -/
theorem pointerEvents_stays_none :
    (run starWidget [.click (some 2)]).container.pointerEvents = "none" ∧
    (run starWidget [.click (some 2), .settled true]).isSubmitting = false ∧
    (run starWidget [.click (some 2), .settled true]).container.pointerEvents = "none" ∧
    (run starWidget [.click (some 2), .settled false]).isSubmitting = false ∧
    (run starWidget [.click (some 2), .settled false]).container.pointerEvents = "none" :=
  ⟨rfl, rfl, rfl, rfl, rfl⟩

/-- C10 as amended. When a click activates a star of a widget that has a callback, the
container gets `pointer-events: none` and the callback is invoked; when its promise
settles, fulfilled or rejected, `isSubmitting` is cleared and the container is left
untouched, so `pointer-events` is still `none`. -/
theorem settle_clears_flag_only (s : Widget) (t : Target) (fulfilled : Bool)
    (hidle : s.isSubmitting = false) (hcb : s.onClickCallback = true)
    (hact : (onClick s t).isSubmitting = true) :
    (onClick s t).container.pointerEvents = "none" ∧
    (onClick s t).pending = s.pending + 1 ∧
    (step (onClick s t) (.settled fulfilled)).isSubmitting = false ∧
    (step (onClick s t) (.settled fulfilled)).container = (onClick s t).container ∧
    (step (onClick s t) (.settled fulfilled)).container.pointerEvents = "none" ∧
    (step (onClick s t) (.settled fulfilled)).currentSelection = (onClick s t).currentSelection := by
  have hkey : (onClick s t).container.pointerEvents = "none" ∧
      (onClick s t).pending = s.pending + 1 := by
    unfold onClick at hact ⊢
    cases hel : s.container.element t with
    | none => simp [hel, hidle] at hact
    | some target =>
      simp only [hel] at hact ⊢
      split at hact
      · split at hact
        · simp only [hcb, if_true] at hact ⊢
          rename_i h1 h2
          simp [h1, h2, updateStarsDisplay]
        · simp [hidle] at hact
      · simp [hidle] at hact
  have hpos : (onClick s t).pending ≠ 0 := by rw [hkey.2]; omega
  have hstep : step (onClick s t) (.settled fulfilled) =
      { onClick s t with isSubmitting := false, pending := (onClick s t).pending - 1 } := by
    show onSettled (onClick s t) = _
    unfold onSettled
    rw [if_neg hpos]
  refine ⟨hkey.1, hkey.2, ?_, ?_, ?_, ?_⟩
  · rw [hstep]
  · rw [hstep]
  · rw [hstep]; exact hkey.1
  · rw [hstep]

/-- C10 as amended, on the five-star widget with a click on the third star. -/
theorem settle_clears_flag_only_witness :
    (step (onClick starWidget (some 2)) (.settled false)).isSubmitting = false ∧
    (step (onClick starWidget (some 2)) (.settled false)).container.pointerEvents = "none" :=
  have h := settle_clears_flag_only starWidget (some 2) false rfl rfl rfl
  ⟨h.2.2.1, h.2.2.2.2.1⟩

set_option maxRecDepth 100000 in
/-- Counterexample to C11: the markup of `renderStars(0, false)` carries a `data-value`
attribute for each of the five positions. -/
theorem readOnly_stars_carry_data_value :
    markupHas (renderStars integerToString (.num (.fin 0)) false) "data-value=\"1\"" = true ∧
    markupHas (renderStars integerToString (.num (.fin 0)) false) "data-value=\"2\"" = true ∧
    markupHas (renderStars integerToString (.num (.fin 0)) false) "data-value=\"3\"" = true ∧
    markupHas (renderStars integerToString (.num (.fin 0)) false) "data-value=\"4\"" = true ∧
    markupHas (renderStars integerToString (.num (.fin 0)) false) "data-value=\"5\"" = true := by
  rw [renderStars_zero]
  exact ⟨rfl, rfl, rfl, rfl, rfl⟩

/-- C11 as amended. For every rating, `renderStars` emits the five star elements of
positions 1 to 5. With `isInteractive` the element of position `i` carries
`data-value="i"`, the class `rating-star`, a style that starts with `cursor:pointer;`
and the label `Rate i stars` as `title` and `aria-label`. In read-only mode it has no
class `rating-star`, an empty `style`, an empty `title` and an empty `aria-label`, so
neither a pointer style nor a label, and it still carries `data-value="i"`. -/
theorem renderStars_affordances (nts : ℚ → String) (rating : JsVal) (i : ℕ)
    (h1 : 1 ≤ i) (h5 : i ≤ 5) :
    (∀ b, renderStars nts rating b =
      starMarkup (starClass (roundedRating nts rating) 1) b 1 ++
      starMarkup (starClass (roundedRating nts rating) 2) b 2 ++
      starMarkup (starClass (roundedRating nts rating) 3) b 3 ++
      starMarkup (starClass (roundedRating nts rating) 4) b 4 ++
      starMarkup (starClass (roundedRating nts rating) 5) b 5) ∧
    (markupHas (starMarkup (starClass (roundedRating nts rating) i) true i)
        ("data-value=\"" ++ toString i ++ "\"") = true ∧
      markupHas (starMarkup (starClass (roundedRating nts rating) i) true i)
        ("class=\"bi " ++ starClass (roundedRating nts rating) i ++ " rating-star\"") = true ∧
      markupHas (starMarkup (starClass (roundedRating nts rating) i) true i)
        "style=\"cursor:pointer;" = true ∧
      markupHas (starMarkup (starClass (roundedRating nts rating) i) true i)
        ("aria-label=\"Rate " ++ toString i ++ " stars\"") = true ∧
      markupHas (starMarkup (starClass (roundedRating nts rating) i) true i)
        ("title=\"Rate " ++ toString i ++ " stars\"") = true) ∧
    (markupHas (starMarkup (starClass (roundedRating nts rating) i) false i)
        ("data-value=\"" ++ toString i ++ "\"") = true ∧
      markupHas (starMarkup (starClass (roundedRating nts rating) i) false i)
        "rating-star" = false ∧
      markupHas (starMarkup (starClass (roundedRating nts rating) i) false i) "cursor" = false ∧
      markupHas (starMarkup (starClass (roundedRating nts rating) i) false i) "Rate" = false ∧
      markupHas (starMarkup (starClass (roundedRating nts rating) i) false i)
        "style=\"\"" = true ∧
      markupHas (starMarkup (starClass (roundedRating nts rating) i) false i)
        "title=\"\"" = true ∧
      markupHas (starMarkup (starClass (roundedRating nts rating) i) false i)
        "aria-label=\"\"" = true) :=
  ⟨fun b => renderStars_unfold nts rating b,
   starMarkup_contents _ i (starClass_three _ i) h1 h5⟩

/-- C11 as amended, for the second star of `renderStars("4.5", ...)`. -/
theorem renderStars_affordances_witness :
    markupHas (starMarkup (starClass (roundedRating integerToString (.str "4.5")) 2) true 2)
        "aria-label=\"Rate 2 stars\"" = true ∧
    markupHas (starMarkup (starClass (roundedRating integerToString (.str "4.5")) 2) false 2)
        "data-value=\"2\"" = true ∧
    markupHas (starMarkup (starClass (roundedRating integerToString (.str "4.5")) 2) false 2)
        "rating-star" = false :=
  have h := renderStars_affordances integerToString (.str "4.5") 2 (by decide) (by decide)
  ⟨h.2.1.2.2.2.1, h.2.2.1, h.2.2.2.1⟩

/-- Counterexample to C12: with an IP-lookup service that rejects every request, a valid
`submitRating` sends two requests to it before the rating request. -/
theorem lookup_is_retried :
    (submitRating integerToString (lookupDown (.obj [("status", .str "success")]))
      (.str "42") (.num (.fin 3))).2.requests.map Request.url =
      ["https://api.ipify.org?format=json", "https://api.ipify.org?format=json",
        API_URL ++ "?userIP=unknown"] := by
  rw [(submitRating_outcome integerToString _ (.str "42") (.num (.fin 3))
    (isInvalid_of_valid integerToString (.str "42") (.fin 3) rfl three_inRatingRange)).2]
  rfl

/-- C12 as amended. For every valid `submitRating` call the IP lookup is made with one
retry: exactly one request goes to the lookup service when the first attempt is
answered ok, exactly two when the first attempt fails; the rating request, a `POST`,
follows them and is issued between one and three times. -/
theorem lookup_attempts (nts : ℚ → String) (w : World) (courseId : JsVal) (r : JNum)
    (hc : courseId.truthy = true) (hr : InRatingRange r) :
    (∀ response, attemptOutcome w ipRequest 0 = .ok response →
      (discoverIP w).2.requests = w.requests ++ [ipRequest]) ∧
    (∀ e, attemptOutcome w ipRequest 0 = .error e →
      (discoverIP w).2.requests = w.requests ++ [ipRequest, ipRequest]) ∧
    (∃ p, 0 < p ∧ p ≤ 3 ∧
      (submitRating nts w courseId (.num r)).2.requests =
        (discoverIP w).2.requests ++
          List.replicate p (submitRequest nts (discoverIP w).1 courseId (.num r))) ∧
    ipRequest.method = "GET" ∧
    (submitRequest nts (discoverIP w).1 courseId (.num r)).method = "POST" := by
  refine ⟨?_, ?_, ?_, rfl, rfl⟩
  · intro response h
    rw [discoverIP_world]
    exact (lookup_requests w).1 response h
  · intro e h
    rw [discoverIP_world]
    exact (lookup_requests w).2 e h
  · exact submitRating_post_requests nts w courseId (.num r)
      (isInvalid_of_valid nts courseId r hc hr)

/-- C12 as amended, on a module just loaded whose lookup service rejects every request:
the lookup leaves two requests in the log. -/
theorem lookup_attempts_witness :
    (discoverIP (lookupDown .null)).2.requests = [ipRequest, ipRequest] :=
  (lookup_attempts integerToString (lookupDown .null) (.str "42") (.fin 3) rfl
    three_inRatingRange).2.1 ⟨"Failed to fetch"⟩ rfl

/-- C13. For every valid `submitRating` call, when the IP lookup throws on every
attempt, or its body cannot be parsed, or its parsed body has no `ip` field, `userIP`
is `unknown`, the rating request is still issued, between one and three times, with the
URL ending in `?userIP=unknown`, and `submitRating` fulfils. Its result is decided by
how the rating request settles: any world in which that request settles the same way,
whatever its IP lookup does, gives the same result. -/
theorem lookup_failure_is_silent (nts : ℚ → String) (w : World) (courseId : JsVal) (r : JNum)
    (hc : courseId.truthy = true) (hr : InRatingRange r)
    (hfail :
      (∃ e, (fetchWithRetry w ipRequest 1).1 = .error e) ∨
      (∃ response e, (fetchWithRetry w ipRequest 1).1 = .ok response ∧
        response.json = .error e) ∨
      (∃ response fields, (fetchWithRetry w ipRequest 1).1 = .ok response ∧
        response.json = .ok (.obj fields) ∧ fields.lookup "ip" = none)) :
    (discoverIP w).1 = .str "unknown" ∧
    (submitRequest nts (discoverIP w).1 courseId (.num r)).url = API_URL ++ "?userIP=unknown" ∧
    (∃ p, 0 < p ∧ p ≤ 3 ∧
      (submitRating nts w courseId (.num r)).2.requests =
        (discoverIP w).2.requests ++
          List.replicate p (submitRequest nts (.str "unknown") courseId (.num r))) ∧
    (∃ v, (submitRating nts w courseId (.num r)).1 = .ok v) ∧
    (∀ w2 : World,
      (fetchWithRetry (discoverIP w2).2
        (submitRequest nts (discoverIP w2).1 courseId (.num r)) 2).1 =
      (fetchWithRetry (discoverIP w).2
        (submitRequest nts (discoverIP w).1 courseId (.num r)) 2).1 →
      (submitRating nts w2 courseId (.num r)).1 = (submitRating nts w courseId (.num r)).1) := by
  have hv := isInvalid_of_valid nts courseId r hc hr
  have hip := discoverIP_unknown w hfail
  refine ⟨hip, ?_, ?_, ?_, ?_⟩
  · rw [hip]; rfl
  · have := submitRating_post_requests nts w courseId (.num r) hv
    rw [hip] at this
    exact this
  · exact ⟨_, (submitRating_outcome nts w courseId (.num r) hv).1⟩
  · intro w2 h
    rw [(submitRating_outcome nts w2 courseId (.num r) hv).1,
      (submitRating_outcome nts w courseId (.num r) hv).1, h]

/-- C13 on a module just loaded whose lookup service rejects every request and whose
backend answers `{"status": "success"}`: the rating is submitted with
`userIP=unknown` and the backend's result comes back. -/
theorem lookup_failure_is_silent_witness :
    (discoverIP (lookupDown (.obj [("status", .str "success")]))).1 = .str "unknown" ∧
    ∃ v, (submitRating integerToString (lookupDown (.obj [("status", .str "success")]))
      (.str "42") (.num (.fin 3))).1 = .ok v :=
  have h := lookup_failure_is_silent integerToString
    (lookupDown (.obj [("status", .str "success")])) (.str "42") (.fin 3) rfl
    three_inRatingRange (Or.inl ⟨⟨"Failed to fetch"⟩, rfl⟩)
  ⟨h.1, h.2.2.2.1⟩

/-- Counterexample to C14: on the fresh five-star widget, Enter or the space key on the
third star changes nothing, while a click on it commits 3, locks the widget and invokes
the callback with 3. After a click has committed 3 and its callback has settled, Enter
on the fifth star invokes the callback with 5 and leaves 3 as the committed selection. -/
theorem enter_is_not_a_click :
    ((step starWidget (.keydown (some 2) "Enter")).isSubmitting = false ∧
      (step starWidget (.keydown (some 2) "Enter")).calls = [] ∧
      (step starWidget (.keydown (some 2) "Enter")).currentSelection = .fin 0) ∧
    ((step starWidget (.keydown (some 2) " ")).isSubmitting = false ∧
      (step starWidget (.keydown (some 2) " ")).calls = [] ∧
      (step starWidget (.keydown (some 2) " ")).currentSelection = .fin 0) ∧
    ((step starWidget (.click (some 2))).isSubmitting = true ∧
      (step starWidget (.click (some 2))).calls = [.fin 3] ∧
      (step starWidget (.click (some 2))).currentSelection = .fin 3) ∧
    ((run starWidget [.click (some 2), .settled false, .keydown (some 4) "Enter"]).calls =
        [.fin 3, .fin 5] ∧
      (run starWidget [.click (some 2), .settled false,
        .keydown (some 4) "Enter"]).currentSelection = .fin 3) :=
  ⟨⟨rfl, rfl, rfl⟩, ⟨rfl, rfl, rfl⟩, ⟨rfl, rfl, rfl⟩, ⟨rfl, rfl⟩⟩

/-- C14 as amended. On a widget with a callback that is not submitting, for a focused
star with `data-value` `v` from 1 to 5 and the key Enter or space: when the committed
selection is greater than 0 the star is clicked, the widget enters Submitting and the
callback is invoked with `v`; when the committed selection already is `v` the widget
ends exactly as after a click on the star, with `v` committed; when the committed
selection is 0, as on a fresh widget, nothing changes. -/
theorem enter_activates (s : Widget) (t : Target) (target : Element) (key : String) (v : ℕ)
    (hidle : s.isSubmitting = false) (hcb : s.onClickCallback = true)
    (hel : s.container.element t = some target)
    (hstar : classListContains target.className "rating-star" = true)
    (hv : dataValueOf target = .fin v) (h1 : 1 ≤ v) (h5 : v ≤ 5)
    (hkey : key = "Enter" ∨ key = " ") :
    (s.currentSelection.gt (.fin 0) = true →
      (onKeydown s t key).isSubmitting = true ∧
      (onKeydown s t key).calls = s.calls ++ [.fin v] ∧
      (onKeydown s t key).pending = s.pending + 1) ∧
    (s.currentSelection = .fin v →
      onKeydown s t key = onClick s t ∧
      (onKeydown s t key).currentSelection = .fin v ∧
      (onKeydown s t key).isSubmitting = true ∧
      (onKeydown s t key).calls = s.calls ++ [.fin v]) ∧
    (s.currentSelection = .fin 0 → onKeydown s t key = s) := by
  have hclick := onClick_activates s t target v hidle hcb hel hstar hv h1 h5
  have hkd := onKeydown_enter s t target key hidle hel hstar hkey
  refine ⟨?_, ?_, ?_⟩
  · intro hgt
    rw [hkd]
    simp only [hgt, if_true]
    split
    · rw [hclick]
      exact ⟨rfl, rfl, rfl⟩
    · rw [hclick]
      exact ⟨rfl, rfl, rfl⟩
  · intro hsel
    have hq : (0 : ℚ) < v := by
      have : (1 : ℚ) ≤ v := by exact_mod_cast h1
      linarith
    have hgt : s.currentSelection.gt (.fin 0) = true := by
      rw [hsel]
      simp [JNum.gt, JNum.lt, hq]
    have heq : JNum.strictEq s.currentSelection (onClick s t).currentSelection = true := by
      rw [hclick, hsel]
      simp [JNum.strictEq]
    have hres : onKeydown s t key = onClick s t := by
      rw [hkd]
      simp only [hgt, if_true, heq, Bool.not_true, Bool.false_eq_true, if_false]
    rw [hres, hclick]
    exact ⟨rfl, rfl, rfl, rfl⟩
  · intro hsel
    have hgt : s.currentSelection.gt (.fin 0) = false := by
      rw [hsel]
      simp [JNum.gt, JNum.lt]
    have heq : JNum.strictEq s.currentSelection s.currentSelection = true := by
      rw [hsel]
      simp [JNum.strictEq]
    rw [hkd]
    simp only [hgt, Bool.false_eq_true, if_false, heq, Bool.not_true]

/-- C14 as amended, on the five-star widget after a click on the third star whose
callback has settled: Enter on the third star acts as a click on it. -/
theorem enter_activates_witness :
    onKeydown (run starWidget [.click (some 2), .settled false]) (some 2) "Enter" =
      onClick (run starWidget [.click (some 2), .settled false]) (some 2) ∧
    (onKeydown (run starWidget [.click (some 2), .settled false]) (some 2) "Enter").calls =
      [.fin 3, .fin 3] :=
  have h := (enter_activates (run starWidget [.click (some 2), .settled false]) (some 2)
    ⟨"bi bi-star text-muted rating-star bi-star-fill text-warning", some "3", some "-1",
      some "button"⟩ "Enter" 3 rfl rfl rfl rfl rfl (by decide) (by decide) (Or.inl rfl)).2.1 rfl
  ⟨h.1, h.2.2.2⟩

/-- C15 evaluated on a page load at which `RatingSystem` is already defined:
`waitForRatingSystem` runs `loadRealRatings` and `setupInteractiveRatings`, and the
`if` that follows runs them again, so each has run twice, two sets of listeners are
attached to the rating container, and one click on the third star calls `submitRating`
twice. When `RatingSystem` is defined later and found by the polling interval, each
function runs once and a click calls `submitRating` once; when the `RatingSystemReady`
event is delivered first, the next tick of the interval runs them a second time. -/
theorem initializePage_runs_twice :
    ((initializePage (pageAtLoad true)).loadRealRatingsRuns = 2 ∧
      (initializePage (pageAtLoad true)).setupInteractiveRatingsRuns = 2 ∧
      (initializePage (pageAtLoad true)).listeners.length = 2 ∧
      submitRatingCalls (dispatchClick (initializePage (pageAtLoad true)) (some 2)) =
        [.fin 3, .fin 3]) ∧
    ((pollTick (scriptLoaded (initializePage (pageAtLoad false)))).loadRealRatingsRuns = 1 ∧
      (pollTick (scriptLoaded (initializePage (pageAtLoad false)))).setupInteractiveRatingsRuns
        = 1 ∧
      (pollTick (scriptLoaded (initializePage (pageAtLoad false)))).listeners.length = 1 ∧
      submitRatingCalls (dispatchClick
        (pollTick (scriptLoaded (initializePage (pageAtLoad false)))) (some 2)) = [.fin 3]) ∧
    ((pollTick (onReadyEvent (scriptLoaded (initializePage (pageAtLoad false))))).loadRealRatingsRuns
        = 2 ∧
      (pollTick (onReadyEvent (scriptLoaded
        (initializePage (pageAtLoad false))))).listeners.length = 2) :=
  ⟨⟨rfl, rfl, rfl, rfl⟩, ⟨rfl, rfl, rfl, rfl⟩, ⟨rfl, rfl⟩⟩

end RatingSystem
